import Mathlib

/-!
# kakao-relay: a shallow embedding and its verified properties

Part I holds the definitions (the embedding of the program); Part II holds
what is proved about them.  Instants are natural numbers (nanoseconds since
the epoch, for `time.Time`), durations are natural numbers of nanoseconds,
and Go `int` values are integers.
-/

namespace KakaoRelay

/-! ## Part I — definitions -/

/-! ### RateLimiter (internal/service, exercised by rate_limiter_test.go) -/

/-- Modelled from the spec: the shared counting store of the rate limiter (its
code is not among the sources): for every rate-limit key the timestamps of the
admitted calls still recorded under it, oldest first. -/
abbrev Store := String → List Nat

/-- The store in which every key is fresh. -/
def emptyStore : Store := fun _ => []

/-- Modelled from the spec: the lazy pruning of the rate limiter (its code is
not among the sources): a record stays counted at instant `now` while `now` is
before the instant `ts + window` at which it falls outside the window. -/
def prune (window now : Nat) (recs : List Nat) : List Nat :=
  recs.filter (fun ts => decide (now < ts + window))

/-- The oldest timestamp of a list of records. -/
def oldest : List Nat → Option Nat
  | [] => none
  | t :: rest =>
    match oldest rest with
    | none => some t
    | some o => some (min t o)

/-- Modelled from the spec: `RateLimiter.CheckLimit(key, limit, window)`, whose
file internal/service/rate_limiter.go is not among the sources (only its test
is).  One atomic prune + count + insert on the shared store: the call is
admitted when the number of records of `key` in the trailing window is
strictly less than `limit`, and is then recorded with its timestamp; when it
is denied, `resetAt` is the oldest counted timestamp plus `window`.  When the
shared store fails (`healthy = false`) the limiter fails closed with a
`resetAt` one window-length after `now` and the store is untouched.  The spec
does not say what `resetAt` is for an admitted call, nor for a denial with
nothing counted (possible only for `limit ≤ 0`); both are `now + window` here.
The result is `((allowed, resetAt), store afterwards)`. -/
def CheckLimit (st : Store) (healthy : Bool) (key : String) (limit : Int)
    (window now : Nat) : (Bool × Nat) × Store :=
  if healthy then
    let live := prune window now (st key)
    if (live.length : Int) < limit then
      ((true, now + window), Function.update st key (live ++ [now]))
    else
      match oldest live with
      | some o => ((false, o + window), Function.update st key live)
      | none => ((false, now + window), Function.update st key live)
  else
    ((false, now + window), st)

/-- A sequence of `CheckLimit` calls on one key with a healthy backend, made at
the instants of the list in order: the store afterwards and the timestamps of
the admitted calls, in call order. -/
def runKey (st : Store) (key : String) (limit : Int) (window : Nat) :
    List Nat → Store × List Nat
  | [] => (st, [])
  | t :: rest =>
    let r := CheckLimit st true key limit window t
    let q := runKey r.2 key limit window rest
    (q.1, if r.1.1 then t :: q.2 else q.2)

/-- The timestamps of the admitted calls among the calls made at the instants
`pre`, in order, on a fresh key. -/
def admittedAfter (key : String) (limit : Int) (window : Nat) (pre : List Nat) : List Nat :=
  (runKey emptyStore key limit window pre).2

/-- The `allowed` answer of the call made at `t` on a key that was fresh before
the calls made at the instants `pre`. -/
def nextAllowed (key : String) (limit : Int) (window : Nat) (pre : List Nat) (t : Nat) : Bool :=
  (CheckLimit (runKey emptyStore key limit window pre).1 true key limit window t).1.1

/-- One `CheckLimit` invocation: its arguments, the instant it is made at and
whether the shared store answers. -/
structure LimitCall where
  key : String
  limit : Int
  window : Nat
  now : Nat
  healthy : Bool
  deriving DecidableEq, Repr

/-- A sequence of arbitrary `CheckLimit` calls run in order from a store: each
call paired with its `(allowed, resetAt)` answer. -/
def runCalls (st : Store) : List LimitCall → List (LimitCall × (Bool × Nat))
  | [] => []
  | c :: rest =>
    let r := CheckLimit st c.healthy c.key c.limit c.window c.now
    (c, r.1) :: runCalls r.2 rest

/-- The answers given to the calls made on key `k`, in call order. -/
def answersOn (k : String) (tr : List (LimitCall × (Bool × Nat))) : List (Bool × Nat) :=
  (tr.filter (fun p => decide (p.1.key = k))).map (fun p => p.2)

/-! ### SessionManager: pairing (internal/service, collaborators mocked in cleanup_test.go) -/

/-- Modelled from the spec: `model.SessionStatus`, whose declaration is not
among the sources; the four statuses of spec §3. -/
inductive SessionStatus where
  | pending_pairing
  | paired
  | disconnected
  | expired
  deriving DecidableEq, Repr

/-- Modelled from the spec: `model.Session`, whose declaration is not among the
sources; a pairing attempt with the attributes of spec §3. -/
structure Session where
  id : String
  tokenHash : String
  pairingCode : String
  status : SessionStatus
  createdAt : Nat
  expiresAt : Nat
  conversationKey : Option String
  metadata : Option String
  deriving DecidableEq, Repr

/-- Modelled from the spec: the two states of a conversation mapping (spec §3);
the declaration is not among the sources. -/
inductive MappingState where
  | paired
  | unpaired
  deriving DecidableEq, Repr

/-- Modelled from the spec: the conversation mapping of spec §3, binding a
tenant to a conversation key; the declaration is not among the sources. -/
structure ConversationMapping where
  conversationKey : String
  tenant : String
  state : MappingState
  deriving DecidableEq, Repr

/-- The durable state the pairing operation works on. -/
structure PairingState where
  sessions : List Session
  mappings : List ConversationMapping
  deriving DecidableEq, Repr

/-- Modelled from the spec: the failure outcomes of `Pair` (spec §4.1, §7); the
error values are not among the sources. -/
inductive PairError where
  | NotFound
  | AlreadyPaired
  | Expired
  deriving DecidableEq, Repr

/-- A session can be claimed by `Pair(code, _)` at instant `now`: the code
matches, the status is still `pending_pairing` and the deadline has not passed
(`expires_at > NOW()`, as in repository/dashboard.go). -/
def claimable (code : String) (now : Nat) (s : Session) : Bool :=
  decide (s.pairingCode = code) && decide (s.status = SessionStatus.pending_pairing) &&
    decide (now < s.expiresAt)

/-- The session after a successful claim: status `paired`, conversation key bound. -/
def markPaired (s : Session) (conv : String) : Session :=
  { s with status := SessionStatus.paired, conversationKey := some conv }

/-- Modelled from the spec: the conditional update of spec §5 and §6 (the
session repository is not among the sources): the first claimable session of the list is marked
paired; the claimed session (as it was) and the list afterwards, or nothing. -/
def claimFirst (code conv : String) (now : Nat) : List Session → Option (Session × List Session)
  | [] => none
  | s :: rest =>
    if claimable code now s then some (s, markPaired s conv :: rest)
    else
      match claimFirst code conv now rest with
      | some (c, rest') => some (c, s :: rest')
      | none => none

/-- Modelled from the spec: creating or updating the mapping of a conversation
key, one mapping per key (the conversation repository is not among the
sources). -/
def upsertMapping (m : ConversationMapping) : List ConversationMapping → List ConversationMapping
  | [] => [m]
  | x :: rest =>
    if x.conversationKey = m.conversationKey then m :: rest else x :: upsertMapping m rest

/-- The mapping of a conversation key, if any. -/
def findMapping (conv : String) (ms : List ConversationMapping) : Option ConversationMapping :=
  ms.find? (fun x => decide (x.conversationKey = conv))

/-- The sessions of a list that hold code `code` and are still `pending_pairing`. -/
def pendingWithCode (code : String) (ss : List Session) : List Session :=
  ss.filter (fun s => decide (s.pairingCode = code) &&
    decide (s.status = SessionStatus.pending_pairing))

/-- Modelled from the spec: `SessionService.Pair(pairingCode, conversationKey)`,
whose file internal/service/session.go is not among the sources (only mocks of
its repository are, in cleanup_test.go).  It atomically claims a session whose
code matches, whose status is still `pending_pairing` and whose deadline has
not passed, binds the conversation key, creates or updates the conversation
mapping for the session's tenant and sets status `paired`.  Otherwise it fails
and changes nothing: `Expired` when a pending session with that code is past
its deadline, `AlreadyPaired` when a session with that code is paired,
`NotFound` otherwise.  The spec does not say how the tenant of a session is
chosen; it is the parameter `tenantOf`. -/
def Pair (tenantOf : Session → String) (w : PairingState) (code conv : String) (now : Nat) :
    Except PairError Session × PairingState :=
  match claimFirst code conv now w.sessions with
  | some (s, sessions') =>
    (Except.ok (markPaired s conv),
      { sessions := sessions',
        mappings := upsertMapping ⟨conv, tenantOf s, MappingState.paired⟩ w.mappings })
  | none =>
    if (pendingWithCode code w.sessions).isEmpty then
      if w.sessions.any (fun s => decide (s.pairingCode = code) &&
          decide (s.status = SessionStatus.paired)) then
        (Except.error PairError.AlreadyPaired, w)
      else (Except.error PairError.NotFound, w)
    else (Except.error PairError.Expired, w)

/-- One `Pair` invocation: code, conversation key and the instant it is made at. -/
structure PairCall where
  code : String
  conv : String
  now : Nat
  deriving DecidableEq, Repr

/-- The state after a sequence of `Pair` calls made in order. -/
def runPairs (tenantOf : Session → String) (w : PairingState) : List PairCall → PairingState
  | [] => w
  | p :: rest => runPairs tenantOf (Pair tenantOf w p.code p.conv p.now).2 rest

/-- The session of the spec's pairing scenario: code `ABCD-1234`, pending. -/
def scenarioSession : Session :=
  { id := "sess-1", tokenHash := "h", pairingCode := "ABCD-1234",
    status := SessionStatus.pending_pairing, createdAt := 0, expiresAt := 300,
    conversationKey := none, metadata := none }

/-- The durable state of the spec's pairing scenario: that one session, no mapping. -/
def scenarioState : PairingState := { sessions := [scenarioSession], mappings := [] }

/-! ### HTTP routing and IP throttling (cmd/server/main.go) -/

/-- One second, in nanoseconds (`time.Second`). -/
def second : Nat := 1000000000

/-- One minute, in nanoseconds. -/
def minute : Nat := 60 * second

/-- The middlewares wired up in `main`.  `ipRateLimit limit window name` is
`middleware.NewIPRateLimitMiddleware(ipRateLimiter, limit, window, name)`. -/
inductive Middleware where
  | requestID
  | realIP
  | requestLogger
  | recoverer
  | timeout
  | bodyLimit
  | kakaoSignature
  | auth
  | redisRateLimit
  | ipRateLimit (limit : Int) (window : Nat) (name : String)
  deriving DecidableEq, Repr

/-- Embeds `sessionCreateRateLimit` of main.go:83. -/
def sessionCreateRateLimit : Middleware := Middleware.ipRateLimit 10 (5 * minute) "session_create"

/-- Embeds `sessionStatusRateLimit` of main.go:84. -/
def sessionStatusRateLimit : Middleware := Middleware.ipRateLimit 30 (1 * minute) "session_status"

/-- The handlers the router dispatches to. -/
inductive HandlerId where
  | health
  | kakaoWebhook
  | events
  | openclaw
  | sessionCreateSession
  | sessionGetSessionStatus
  | dashServeIndex
  | dashOverview
  | dashListAccounts
  | dashAccountConversations
  | dashAccountMessages
  | dashAccountStats
  | dashAccountFailedMessages
  | dashRegenerateToken
  | dashDeleteAccount
  | dashDeleteConversation
  | dashListSessions
  | dashCreateSession
  | dashDisconnectSession
  | dashDeleteSession
  deriving DecidableEq, Repr

/-- A route of the table: method, full pattern, the middlewares of its groups
(after the router-wide ones) and its handler.  The method `*` is that of a
mounted sub-router (`r.Mount`), which receives requests of every method. -/
structure Route where
  method : String
  pattern : String
  middlewares : List Middleware
  handler : HandlerId
  deriving DecidableEq, Repr

/-- The router-wide middlewares, `r.Use(...)` of main.go:104-109, in order. -/
def globalMiddlewares : List Middleware :=
  [Middleware.requestID, Middleware.realIP, Middleware.requestLogger, Middleware.recoverer,
    Middleware.timeout, Middleware.bodyLimit]

/-- The route table of main.go:111-159. -/
def routes : List Route :=
  [ ⟨"GET", "/health", [], HandlerId.health⟩,
    ⟨"POST", "/kakao-talkchannel/webhook", [Middleware.kakaoSignature], HandlerId.kakaoWebhook⟩,
    ⟨"GET", "/v1/events", [Middleware.auth, Middleware.redisRateLimit], HandlerId.events⟩,
    ⟨"*", "/openclaw/*", [Middleware.auth, Middleware.redisRateLimit], HandlerId.openclaw⟩,
    ⟨"POST", "/v1/sessions/create", [sessionCreateRateLimit], HandlerId.sessionCreateSession⟩,
    ⟨"GET", "/v1/sessions/{sessionToken}/status", [sessionStatusRateLimit],
      HandlerId.sessionGetSessionStatus⟩,
    ⟨"GET", "/dashboard/", [], HandlerId.dashServeIndex⟩,
    ⟨"GET", "/dashboard/api/overview", [], HandlerId.dashOverview⟩,
    ⟨"GET", "/dashboard/api/accounts", [], HandlerId.dashListAccounts⟩,
    ⟨"GET", "/dashboard/api/accounts/{id}/conversations", [],
      HandlerId.dashAccountConversations⟩,
    ⟨"GET", "/dashboard/api/accounts/{id}/messages", [], HandlerId.dashAccountMessages⟩,
    ⟨"GET", "/dashboard/api/accounts/{id}/stats", [], HandlerId.dashAccountStats⟩,
    ⟨"GET", "/dashboard/api/accounts/{id}/failed-messages", [],
      HandlerId.dashAccountFailedMessages⟩,
    ⟨"POST", "/dashboard/api/accounts/{id}/regenerate-token", [],
      HandlerId.dashRegenerateToken⟩,
    ⟨"DELETE", "/dashboard/api/accounts/{id}", [], HandlerId.dashDeleteAccount⟩,
    ⟨"DELETE", "/dashboard/api/accounts/{id}/conversations/{convId}", [],
      HandlerId.dashDeleteConversation⟩,
    ⟨"GET", "/dashboard/api/sessions", [], HandlerId.dashListSessions⟩,
    ⟨"POST", "/dashboard/api/sessions/create", [], HandlerId.dashCreateSession⟩,
    ⟨"POST", "/dashboard/api/sessions/{id}/disconnect", [], HandlerId.dashDisconnectSession⟩,
    ⟨"DELETE", "/dashboard/api/sessions/{id}", [], HandlerId.dashDeleteSession⟩ ]

/-- The handlers that invoke `SessionService.CreateSession`:
`DashboardHandler.CreateSession` (dashboard.go:238) and
`SessionHandler.CreateSession` (the pairing/session endpoint of spec §6). -/
def invokesCreateSession : HandlerId → Bool
  | HandlerId.sessionCreateSession => true
  | HandlerId.dashCreateSession => true
  | _ => false

/-- What becomes of a request: it reaches its handler, or a middleware answers
instead. -/
inductive Outcome where
  | reached (h : HandlerId)
  | rateLimited (resetAt : Nat)
  | rejected (m : Middleware)
  | notFound
  deriving DecidableEq, Repr

/-- Modelled from the spec: the middleware chain of a request from `ip` at
instant `now`.  `middleware.NewIPRateLimitMiddleware` is not among the sources;
per the spec it keys the limiter by `(limiter name, source IP)`, answers
`RateLimited` when `CheckLimit` denies and otherwise lets the request through.
Whether a request passes the other middlewares is the parameter `passes`. -/
def runChain (passes : Middleware → Bool) (healthy : Bool) (ip : String) (now : Nat)
    (h : HandlerId) : Store → List Middleware → Outcome × Store
  | st, [] => (Outcome.reached h, st)
  | st, Middleware.ipRateLimit limit window name :: rest =>
    let r := CheckLimit st healthy (name ++ ":" ++ ip) limit window now
    if r.1.1 then runChain passes healthy ip now h r.2 rest
    else (Outcome.rateLimited r.1.2, r.2)
  | st, m :: rest =>
    if passes m then runChain passes healthy ip now h st rest else (Outcome.rejected m, st)

/-- An HTTP request as far as routing and throttling see it. -/
structure Request where
  method : String
  pattern : String
  ip : String
  now : Nat
  deriving DecidableEq, Repr

/-- Whether a route answers a request: the patterns agree, and so do the
methods unless the route is a mount, which takes every method. -/
def Route.accepts (r : Route) (rq : Request) : Bool :=
  (decide (r.method = "*") || decide (r.method = rq.method)) && decide (r.pattern = rq.pattern)

/-- Serving one request: the route is looked up and its chain is run. -/
def serve (passes : Middleware → Bool) (healthy : Bool) (st : Store) (rq : Request) :
    Outcome × Store :=
  match routes.find? (fun r => r.accepts rq) with
  | some r => runChain passes healthy rq.ip rq.now r.handler st (globalMiddlewares ++ r.middlewares)
  | none => (Outcome.notFound, st)

/-- Serving a sequence of requests in order: their outcomes. -/
def serveAll (passes : Middleware → Bool) (healthy : Bool) : Store → List Request → List Outcome
  | _, [] => []
  | st, rq :: rest =>
    let r := serve passes healthy st rq
    r.1 :: serveAll passes healthy r.2 rest

/-- Requests on one route from one IP, one per second from instant 0. -/
def burst (method pattern ip : String) (n : Nat) : List Request :=
  (List.range n).map (fun i => ⟨method, pattern, ip, i * second⟩)

/-! ### Token hashing (internal/util/crypto.go) -/

/-- The round constants of SHA-256 (FIPS 180-4), for Go's `crypto/sha256`. -/
def sha256K : List Nat := [
  0x428a2f98, 0x71374491, 0xb5c0fbcf, 0xe9b5dba5, 0x3956c25b, 0x59f111f1, 0x923f82a4, 0xab1c5ed5,
  0xd807aa98, 0x12835b01, 0x243185be, 0x550c7dc3, 0x72be5d74, 0x80deb1fe, 0x9bdc06a7, 0xc19bf174,
  0xe49b69c1, 0xefbe4786, 0x0fc19dc6, 0x240ca1cc, 0x2de92c6f, 0x4a7484aa, 0x5cb0a9dc, 0x76f988da,
  0x983e5152, 0xa831c66d, 0xb00327c8, 0xbf597fc7, 0xc6e00bf3, 0xd5a79147, 0x06ca6351, 0x14292967,
  0x27b70a85, 0x2e1b2138, 0x4d2c6dfc, 0x53380d13, 0x650a7354, 0x766a0abb, 0x81c2c92e, 0x92722c85,
  0xa2bfe8a1, 0xa81a664b, 0xc24b8b70, 0xc76c51a3, 0xd192e819, 0xd6990624, 0xf40e3585, 0x106aa070,
  0x19a4c116, 0x1e376c08, 0x2748774c, 0x34b0bcb5, 0x391c0cb3, 0x4ed8aa4a, 0x5b9cca4f, 0x682e6ff3,
  0x748f82ee, 0x78a5636f, 0x84c87814, 0x8cc70208, 0x90befffa, 0xa4506ceb, 0xbef9a3f7, 0xc67178f2]

/-- The initial hash value of SHA-256. -/
def sha256Init : List Nat :=
  [0x6a09e667, 0xbb67ae85, 0x3c6ef372, 0xa54ff53a, 0x510e527f, 0x9b05688c, 0x1f83d9ab, 0x5be0cd19]

/-- Truncation to a 32-bit word. -/
def w32 (x : Nat) : Nat := x % 4294967296

/-- Rotation of a 32-bit word to the right. -/
def rotr (x n : Nat) : Nat := w32 ((x >>> n) ||| (x <<< (32 - n)))

/-- The padded message: the bytes, `0x80`, zeros up to 56 modulo 64, and the
bit length as 8 big-endian bytes. -/
def sha256Pad (msg : List Nat) : List Nat :=
  msg ++ [0x80] ++ List.replicate ((64 - (msg.length + 9) % 64) % 64) 0 ++
    (List.range 8).map (fun i => ((8 * msg.length) >>> (8 * (7 - i))) % 256)

/-- A big-endian word from its bytes. -/
def beWord (bs : List Nat) : Nat := bs.foldl (fun acc b => acc * 256 + b) 0

/-- The list cut into pieces of `n` elements (at most `fuel` pieces). -/
def chunks (n : Nat) : Nat → List Nat → List (List Nat)
  | 0, _ => []
  | k + 1, bs => if bs.isEmpty then [] else bs.take n :: chunks n k (bs.drop n)

/-- The 64-word message schedule of a 64-byte block. -/
def schedule (block : List Nat) : List Nat :=
  (List.range 48).foldl (fun w _ =>
    let t := w.length
    let w15 := w.getD (t - 15) 0
    let w2 := w.getD (t - 2) 0
    let s0 := (rotr w15 7) ^^^ (rotr w15 18) ^^^ (w15 >>> 3)
    let s1 := (rotr w2 17) ^^^ (rotr w2 19) ^^^ (w2 >>> 10)
    w ++ [w32 (w.getD (t - 16) 0 + s0 + w.getD (t - 7) 0 + s1)])
    ((chunks 4 16 block).map beWord)

/-- One round of the compression function on the eight working variables. -/
def sha256Round (st : List Nat) (kw : Nat × Nat) : List Nat :=
  match st with
  | [a, b, c, d, e, f, g, h] =>
    let S1 := (rotr e 6) ^^^ (rotr e 11) ^^^ (rotr e 25)
    let ch := (e &&& f) ^^^ ((4294967295 - e) &&& g)
    let t1 := w32 (h + S1 + ch + kw.1 + kw.2)
    let S0 := (rotr a 2) ^^^ (rotr a 13) ^^^ (rotr a 22)
    let maj := (a &&& b) ^^^ (a &&& c) ^^^ (b &&& c)
    let t2 := w32 (S0 + maj)
    [w32 (t1 + t2), a, b, c, w32 (d + t1), e, f, g]
  | _ => st

/-- The compression of one block into the hash value. -/
def compress (h : List Nat) (block : List Nat) : List Nat :=
  List.zipWith (fun x y => w32 (x + y)) h ((sha256K.zip (schedule block)).foldl sha256Round h)

/-- Go's `sha256.Sum256`: the 32-byte SHA-256 digest of a byte sequence. -/
def Sum256 (msg : List Nat) : List Nat :=
  (((chunks 64 (sha256Pad msg).length (sha256Pad msg)).foldl compress sha256Init).map
    (fun w => (List.range 4).map (fun i => (w >>> (8 * (3 - i))) % 256))).flatten

/-- One lowercase hexadecimal digit. -/
def hexDigit (n : Nat) : Char := "0123456789abcdef".toList.getD n '0'

/-- Go's `hex.EncodeToString`: two lowercase hexadecimal digits per byte. -/
def hexEncodeToString (bs : List Nat) : String :=
  String.mk (bs.flatMap (fun b => [hexDigit (b / 16), hexDigit (b % 16)]))

/-- The bytes of a Go string (`[]byte(s)`): its UTF-8 encoding. -/
def stringBytes (s : String) : List Nat := s.toUTF8.data.toList.map UInt8.toNat

/-- Embeds `tokenBytes` of crypto.go:11. -/
def tokenBytes : Nat := 32

/-- Embeds `util.GenerateToken` (crypto.go:13-19): `rnd` is what `rand.Read` delivers
into the buffer of `tokenBytes` bytes, the random bytes or an error.  The
result is Go's pair `(string, error)`, `none` being the nil error. -/
def GenerateToken (rnd : Except String (List Nat)) : String × Option String :=
  match rnd with
  | Except.error e => ("", some e)
  | Except.ok bytes => (hexEncodeToString (bytes.take tokenBytes), none)

/-- Embeds `util.HashToken` (crypto.go:21-24). -/
def HashToken (token : String) : String :=
  hexEncodeToString (Sum256 (stringBytes token))

/-- An HTTP response: status code and the JSON object written. -/
structure Response where
  status : Nat
  body : List (String × String)
  deriving DecidableEq, Repr

/-- Embeds `DashboardHandler.RegenerateToken` (dashboard.go:248-267).  `rnd` is what
`rand.Read` delivers and `updateOk` whether `accountRepo.UpdateToken` succeeds.
The result is the `UpdateToken(id, tokenHash)` calls made and the response. -/
def RegenerateToken (rnd : Except String (List Nat)) (updateOk : Bool) (accountID : String) :
    List (String × String) × Response :=
  match GenerateToken rnd with
  | (_, some _) => ([], ⟨500, [("error", "Failed to generate token")]⟩)
  | (token, none) =>
    let tokenHash := HashToken token
    if updateOk then ([(accountID, tokenHash)], ⟨200, [("relayToken", token)]⟩)
    else ([(accountID, tokenHash)], ⟨500, [("error", "Failed to regenerate token")]⟩)

/-! ### MessageService (internal/service/message.go) -/

/-- A Go `error`: a base error, or `fmt.Errorf("context: %w", cause)`. -/
inductive GoError where
  | base (msg : String)
  | wrap (context : String) (cause : GoError)
  deriving DecidableEq, Repr

/-- Modelled from the spec: `model.InboundMessageStatus`, whose declaration is
not among the sources; the statuses of spec §3. -/
inductive InboundMessageStatus where
  | queued
  | delivered
  | acked
  | expired
  deriving DecidableEq, Repr

/-- Modelled from the spec: `model.OutboundMessageStatus`, whose declaration is
not among the sources; the statuses of spec §3 (`model.OutboundStatusFailed` is
used at message.go:150). -/
inductive OutboundMessageStatus where
  | pending
  | sent
  | failed
  deriving DecidableEq, Repr

/-- Embeds `model.CreateInboundMessageParams`, with the fields set at message.go:41-49.
Raw JSON and URLs are strings, instants are numbers. -/
structure CreateInboundMessageParams where
  AccountID : String
  ConversationKey : String
  KakaoPayload : String
  NormalizedMessage : String
  CallbackURL : Option String
  CallbackExpiresAt : Option Nat
  SourceEventID : Option String
  deriving DecidableEq, Repr

/-- Embeds `service.CreateInboundParams` (message.go:15-23). -/
structure CreateInboundParams where
  AccountID : String
  ConversationKey : String
  KakaoPayload : String
  NormalizedMessage : String
  CallbackURL : Option String
  CallbackExpiresAt : Option Nat
  SourceEventID : Option String
  deriving DecidableEq, Repr

/-- Modelled from the spec: `model.InboundMessage`, whose declaration is not
among the sources; the attributes are those of spec §3. -/
structure InboundMessage where
  ID : String
  AccountID : String
  ConversationKey : String
  KakaoPayload : String
  NormalizedMessage : String
  CallbackURL : Option String
  CallbackExpiresAt : Option Nat
  SourceEventID : Option String
  Status : InboundMessageStatus
  deriving DecidableEq, Repr

/-- Modelled from the spec: `model.CreateOutboundMessageParams`, whose
declaration is not among the sources; `AccountID` and `ConversationKey` are
read at message.go:95-96, the payload is that of spec §4.4. -/
structure CreateOutboundMessageParams where
  AccountID : String
  ConversationKey : String
  Payload : String
  deriving DecidableEq, Repr

/-- Modelled from the spec: `model.OutboundMessage`, whose declaration is not
among the sources; the attributes are those of spec §3. -/
structure OutboundMessage where
  ID : String
  AccountID : String
  ConversationKey : String
  Payload : String
  Status : OutboundMessageStatus
  ErrorDetail : Option String
  deriving DecidableEq, Repr

/-- A period of a time zone: the offset from UTC in seconds that is in force for
the instants `start ≤ t < stop` (seconds since the epoch). -/
structure ZonePeriod where
  offset : Int
  start : Int
  stop : Int
  deriving DecidableEq, Repr

/-- Go's `*time.Location`: a name and the zone periods it knows. -/
structure Location where
  name : String
  periods : List ZonePeriod
  deriving DecidableEq, Repr

/-- Go's `Location.lookup(sec)`: the period in force at the instant `sec`; an
instant the table does not cover is read as UTC, as for a location without
zone data. -/
def Location.lookup (l : Location) (sec : Int) : ZonePeriod :=
  match l.periods.find? (fun p => decide (p.start ≤ sec) && decide (sec < p.stop)) with
  | some p => p
  | none => ⟨0, -9223372036854775808, 9223372036854775807⟩

/-- The number of days from 1970-01-01 to the day `d` of month `m` (1..12) of
year `y` in the proleptic Gregorian calendar; `d` may run past the month. -/
def daysFromCivil (y m d : Int) : Int :=
  let y' := if m ≤ 2 then y - 1 else y
  let era := y' / 400
  let yoe := y' - era * 400
  let mp := if 2 < m then m - 3 else m + 9
  let doy := (153 * mp + 2) / 5 + d - 1
  let doe := yoe * 365 + yoe / 4 - yoe / 100 + doy
  era * 146097 + doe - 719468

/-- The year, month and day of the day that is `z` days after 1970-01-01. -/
def civilFromDays (z : Int) : Int × Int × Int :=
  let z' := z + 719468
  let era := z' / 146097
  let doe := z' - era * 146097
  let yoe := (doe - doe / 1460 + doe / 36524 - doe / 146096) / 365
  let doy := doe - (365 * yoe + yoe / 4 - yoe / 100)
  let mp := (5 * doy + 2) / 153
  let d := doy - (153 * mp + 2) / 5 + 1
  let m := if mp < 10 then mp + 3 else mp - 9
  (if m ≤ 2 then yoe + era * 400 + 1 else yoe + era * 400, m, d)

/-- A reading of Go's `time.Time`: the calendar date and clock time in a
location, as `Year()`, `Month()`, `Day()`, ... and `Location()` return them. -/
structure GoTime where
  year : Nat
  month : Nat
  day : Nat
  hour : Nat
  minute : Nat
  second : Nat
  nanosecond : Nat
  location : Location
  deriving DecidableEq, Repr

/-- The reading, in `loc`, of the instant `sec` seconds (and `nsec` nanoseconds)
after the epoch: the date and clock time of `sec` plus the offset in force. -/
def GoTime.ofUnix (sec : Int) (nsec : Nat) (loc : Location) : GoTime :=
  let localSec := sec + (loc.lookup sec).offset
  let c := civilFromDays (localSec / 86400)
  let r := localSec % 86400
  { year := c.1.toNat, month := c.2.1.toNat, day := c.2.2.toNat, hour := (r / 3600).toNat,
    minute := (r % 3600 / 60).toNat, second := (r % 60).toNat, nanosecond := nsec,
    location := loc }

/-- The offset `time.Date` settles on for the wall-clock second `unix` (counted
as if in UTC): the offset in force at `unix`, unless `unix` less that offset
falls outside its period, in which case the offset in force there. -/
def dateOffset (loc : Location) (unix : Int) : Int :=
  if (loc.lookup unix).offset ≠ 0 then
    if unix - (loc.lookup unix).offset < (loc.lookup unix).start ∨
        (loc.lookup unix).stop ≤ unix - (loc.lookup unix).offset then
      (loc.lookup (unix - (loc.lookup unix).offset)).offset
    else (loc.lookup unix).offset
  else 0

/-- Go's `time.Date(year, month, day, hour, min, sec, nsec, loc)`: the arguments
are normalised, the wall-clock second is counted as if in UTC, the zone offset
is looked up and taken off, and the result is the reading of that instant in
`loc`.  Where the wall-clock time does not exist in `loc` (a gap at a zone
transition) the reading differs from the arguments. -/
def GoTime.Date (year month day hour minute second nanosecond : Nat) (loc : Location) :
    GoTime :=
  GoTime.ofUnix
    ((daysFromCivil ((year : Int) + ((month : Int) - 1) / 12) (((month : Int) - 1) % 12 + 1)
        (day : Int) * 86400 + (hour : Int) * 3600 + (minute : Int) * 60 +
        ((second : Int) + ((nanosecond / 1000000000 : Nat) : Int))) -
      dateOffset loc
        (daysFromCivil ((year : Int) + ((month : Int) - 1) / 12) (((month : Int) - 1) % 12 + 1)
          (day : Int) * 86400 + (hour : Int) * 3600 + (minute : Int) * 60 +
          ((second : Int) + ((nanosecond / 1000000000 : Nat) : Int))))
    (nanosecond % 1000000000) loc

/-- The location UTC. -/
def utcLocation : Location := ⟨"UTC", []⟩

/-- The location Asia/Seoul: nine hours ahead of UTC, no transitions. -/
def seoul : Location :=
  ⟨"Asia/Seoul", [⟨32400, -9223372036854775808, 9223372036854775807⟩]⟩

/-- The location America/Havana around 2026: UTC−5 until 2026-03-08 05:00 UTC
(local midnight, when the clocks jump to 01:00), UTC−4 until 2026-11-01 05:00
UTC, then UTC−5 again. -/
def havana : Location :=
  ⟨"America/Havana", [⟨-18000, 1762059600, 1772946000⟩, ⟨-14400, 1772946000, 1793509200⟩,
    ⟨-18000, 1793509200, 1805000400⟩]⟩

/-- A call made on a collaborator: a method of one of the two message
repositories, the logger, or the event broker's `Publish`. -/
inductive Call where
  | inboundCreate (p : CreateInboundMessageParams)
  | inboundFindByID (id : String)
  | inboundFindQueuedByAccountID (accountID : String)
  | inboundMarkDelivered (id : String)
  | inboundMarkAcked (id : String)
  | outboundCreate (p : CreateOutboundMessageParams)
  | outboundMarkSent (id : String)
  | outboundMarkFailed (id : String) (errorMsg : String)
  | brokerPublish (tenant : String) (messageID : String)
  | log (level : String) (msg : String) (fields : List (String × String))
  | inboundCountByAccountID (accountID : String)
  | inboundCountByAccountIDSince (accountID : String) (since : GoTime)
  | outboundCountByAccountID (accountID : String)
  | outboundCountByAccountIDSince (accountID : String) (since : GoTime)
  | outboundCountByAccountIDAndStatus (accountID : String) (status : OutboundMessageStatus)
  deriving DecidableEq, Repr

/-- Embeds `repository.InboundMessageRepository`, as far as `MessageService` uses it:
each method takes the database state and returns its result with the state
afterwards. -/
structure InboundMessageRepository (σ : Type) where
  Create : σ → CreateInboundMessageParams → Except GoError InboundMessage × σ
  FindByID : σ → String → Except GoError (Option InboundMessage) × σ
  FindQueuedByAccountID : σ → String → Except GoError (List InboundMessage) × σ
  MarkDelivered : σ → String → Option GoError × σ
  MarkAcked : σ → String → Option GoError × σ
  CountByAccountID : σ → String → Except GoError Int × σ
  CountByAccountIDSince : σ → String → GoTime → Except GoError Int × σ

/-- Embeds `repository.OutboundMessageRepository`, as far as `MessageService` uses it. -/
structure OutboundMessageRepository (σ : Type) where
  Create : σ → CreateOutboundMessageParams → Except GoError OutboundMessage × σ
  MarkSent : σ → String → Option GoError × σ
  MarkFailed : σ → String → String → Option GoError × σ
  CountByAccountID : σ → String → Except GoError Int × σ
  CountByAccountIDSince : σ → String → GoTime → Except GoError Int × σ
  CountByAccountIDAndStatus : σ → String → OutboundMessageStatus → Except GoError Int × σ

/-- Embeds `service.MessageService` (message.go:25-28): the two repositories, nothing else. -/
structure MessageService (σ : Type) where
  inboundRepo : InboundMessageRepository σ
  outboundRepo : OutboundMessageRepository σ

/-- Modelled from the spec: an open `AwaitReply` registration of spec §4.4, the
awaited inbound message and its conversation key; no code among the sources
creates or resolves one. -/
structure Wait where
  inboundID : String
  conversationKey : String
  deriving DecidableEq, Repr

/-- The world a service method runs in: the database, the open `AwaitReply`
registrations (outside the reach of `MessageService`, which holds only its two
repositories) and the collaborator calls made so far, oldest first. -/
structure World (σ : Type) where
  db : σ
  waits : List Wait
  trace : List Call

/-- The repository parameters built at message.go:41-49: the seven fields are
passed through. -/
def CreateInboundParams.toModel (params : CreateInboundParams) : CreateInboundMessageParams :=
  { AccountID := params.AccountID, ConversationKey := params.ConversationKey,
    KakaoPayload := params.KakaoPayload, NormalizedMessage := params.NormalizedMessage,
    CallbackURL := params.CallbackURL, CallbackExpiresAt := params.CallbackExpiresAt,
    SourceEventID := params.SourceEventID }

/-- Embeds `MessageService.CreateInbound` (message.go:40-61). -/
def MessageService.CreateInbound {σ : Type} (s : MessageService σ) (w : World σ)
    (params : CreateInboundParams) : Except GoError InboundMessage × World σ :=
  let mp : CreateInboundMessageParams := params.toModel
  let r := s.inboundRepo.Create w.db mp
  match r.1 with
  | Except.error err =>
    (Except.error (GoError.wrap "create inbound message" err),
      { w with db := r.2, trace := w.trace ++ [Call.inboundCreate mp] })
  | Except.ok msg =>
    (Except.ok msg,
      { w with db := r.2, trace := w.trace ++ [Call.inboundCreate mp,
          Call.log "info" "inbound message created"
            [("messageId", msg.ID), ("accountId", params.AccountID),
              ("conversationKey", params.ConversationKey)]] })

/-- Embeds `MessageService.MarkDelivered` (message.go:71-77). -/
def MessageService.MarkDelivered {σ : Type} (s : MessageService σ) (w : World σ) (id : String) :
    Option GoError × World σ :=
  let r := s.inboundRepo.MarkDelivered w.db id
  match r.1 with
  | some err =>
    (some (GoError.wrap "mark delivered" err),
      { w with db := r.2, trace := w.trace ++ [Call.inboundMarkDelivered id] })
  | none =>
    (none, { w with db := r.2, trace := w.trace ++ [Call.inboundMarkDelivered id,
        Call.log "debug" "message marked as delivered" [("messageId", id)]] })

/-- Embeds `MessageService.MarkAcked` (message.go:79-85). -/
def MessageService.MarkAcked {σ : Type} (s : MessageService σ) (w : World σ) (id : String) :
    Option GoError × World σ :=
  let r := s.inboundRepo.MarkAcked w.db id
  match r.1 with
  | some err =>
    (some (GoError.wrap "mark acked" err),
      { w with db := r.2, trace := w.trace ++ [Call.inboundMarkAcked id] })
  | none =>
    (none, { w with db := r.2, trace := w.trace ++ [Call.inboundMarkAcked id,
        Call.log "debug" "message marked as acked" [("messageId", id)]] })

/-- Embeds `MessageService.CreateOutbound` (message.go:87-100). -/
def MessageService.CreateOutbound {σ : Type} (s : MessageService σ) (w : World σ)
    (params : CreateOutboundMessageParams) : Except GoError OutboundMessage × World σ :=
  let r := s.outboundRepo.Create w.db params
  match r.1 with
  | Except.error err =>
    (Except.error (GoError.wrap "create outbound message" err),
      { w with db := r.2, trace := w.trace ++ [Call.outboundCreate params] })
  | Except.ok msg =>
    (Except.ok msg,
      { w with db := r.2, trace := w.trace ++ [Call.outboundCreate params,
          Call.log "info" "outbound message created"
            [("messageId", msg.ID), ("accountId", params.AccountID),
              ("conversationKey", params.ConversationKey)]] })

/-- Embeds `MessageService.MarkOutboundSent` (message.go:102-104). -/
def MessageService.MarkOutboundSent {σ : Type} (s : MessageService σ) (w : World σ)
    (id : String) : Option GoError × World σ :=
  let r := s.outboundRepo.MarkSent w.db id
  (r.1, { w with db := r.2, trace := w.trace ++ [Call.outboundMarkSent id] })

/-- Embeds `MessageService.MarkOutboundFailed` (message.go:106-108). -/
def MessageService.MarkOutboundFailed {σ : Type} (s : MessageService σ) (w : World σ)
    (id errorMsg : String) : Option GoError × World σ :=
  let r := s.outboundRepo.MarkFailed w.db id errorMsg
  (r.1, { w with db := r.2, trace := w.trace ++ [Call.outboundMarkFailed id errorMsg] })

/-- Embeds `service.QuickStats` (message.go:110-117). -/
structure QuickStats where
  InboundToday : Int
  InboundTotal : Int
  OutboundToday : Int
  OutboundTotal : Int
  OutboundFailed : Int
  deriving DecidableEq, Repr

/-- The value `todayStart` of message.go:124:
`time.Date(now.Year(), now.Month(), now.Day(), 0, 0, 0, 0, now.Location())`. -/
def todayStart (now : GoTime) : GoTime :=
  GoTime.Date now.year now.month now.day 0 0 0 0 now.location

/-- Embeds `MessageService.GetQuickStats` (message.go:120-157); `now` is the
reading of `time.Now()`. -/
def MessageService.GetQuickStats {σ : Type} (s : MessageService σ) (w : World σ)
    (accountID : String) (now : GoTime) : Except GoError QuickStats × World σ :=
  let r1 := s.inboundRepo.CountByAccountID w.db accountID
  let t1 := w.trace ++ [Call.inboundCountByAccountID accountID]
  match r1.1 with
  | Except.error err =>
    (Except.error (GoError.wrap "count inbound messages" err), { w with db := r1.2, trace := t1 })
  | Except.ok inboundTotal =>
    let r2 := s.inboundRepo.CountByAccountIDSince r1.2 accountID (todayStart now)
    let t2 := t1 ++ [Call.inboundCountByAccountIDSince accountID (todayStart now)]
    match r2.1 with
    | Except.error err =>
      (Except.error (GoError.wrap "count inbound today" err), { w with db := r2.2, trace := t2 })
    | Except.ok inboundToday =>
      let r3 := s.outboundRepo.CountByAccountID r2.2 accountID
      let t3 := t2 ++ [Call.outboundCountByAccountID accountID]
      match r3.1 with
      | Except.error err =>
        (Except.error (GoError.wrap "count outbound messages" err),
          { w with db := r3.2, trace := t3 })
      | Except.ok outboundTotal =>
        let r4 := s.outboundRepo.CountByAccountIDSince r3.2 accountID (todayStart now)
        let t4 := t3 ++ [Call.outboundCountByAccountIDSince accountID (todayStart now)]
        match r4.1 with
        | Except.error err =>
          (Except.error (GoError.wrap "count outbound today" err),
            { w with db := r4.2, trace := t4 })
        | Except.ok outboundToday =>
          let r5 := s.outboundRepo.CountByAccountIDAndStatus r4.2 accountID
            OutboundMessageStatus.failed
          let t5 := t4 ++ [Call.outboundCountByAccountIDAndStatus accountID
            OutboundMessageStatus.failed]
          match r5.1 with
          | Except.error err =>
            (Except.error (GoError.wrap "count failed messages" err),
              { w with db := r5.2, trace := t5 })
          | Except.ok failedCount =>
            (Except.ok (QuickStats.mk inboundToday inboundTotal outboundToday outboundTotal
                failedCount),
              { w with db := r5.2, trace := t5 })

/-- Whether a call is an `EventBroker.Publish`. -/
def Call.isPublish : Call → Bool
  | Call.brokerPublish _ _ => true
  | _ => false

/-- Whether a call is `MarkSent` or `MarkFailed` on the outbound message `id`. -/
def Call.marksOutbound (id : String) : Call → Bool
  | Call.outboundMarkSent i => decide (i = id)
  | Call.outboundMarkFailed i _ => decide (i = id)
  | _ => false

/-- An in-memory database for the examples: the two message tables, the
identifiers still to be handed out and the creation instants of messages, by
identifier, as far as they are recorded. -/
structure MemDB where
  inbound : List InboundMessage
  outbound : List OutboundMessage
  freshIDs : List String
  createdAt : List (String × GoTime) := []
  deriving DecidableEq, Repr

/-- The first list of numbers is not before the second in dictionary order. -/
def lexNotBefore : List Nat → List Nat → Bool
  | a :: as, b :: bs => if a < b then false else if b < a then true else lexNotBefore as bs
  | _, _ => true

/-- The reading `t` is not before `since`, both read in one location: the
fields compared from the year down to the nanosecond. -/
def GoTime.notBefore (t since : GoTime) : Bool :=
  lexNotBefore [t.year, t.month, t.day, t.hour, t.minute, t.second, t.nanosecond]
    [since.year, since.month, since.day, since.hour, since.minute, since.second,
      since.nanosecond]

/-- Whether the message `id` was created at or after `since`, by the creation
instants the database holds; a message without one is taken as just created. -/
def MemDB.createdSince (db : MemDB) (id : String) (since : GoTime) : Bool :=
  match db.createdAt.find? (fun p => decide (p.1 = id)) with
  | some p => p.2.notBefore since
  | none => true

/-- Modelled from the spec: the status-guarded update of spec §5 on the inbound
table (the inbound repository is not among the sources): the status of the
message `id` becomes `target` when its current status satisfies `ok`, and
nothing changes otherwise. -/
def MemDB.setInboundStatus (db : MemDB) (id : String) (ok : InboundMessageStatus → Bool)
    (target : InboundMessageStatus) : MemDB :=
  { db with inbound := db.inbound.map (fun m =>
      if m.ID = id && ok m.Status then { m with Status := target } else m) }

/-- Modelled from the spec: the inbound message repository, whose
implementation is not among the sources (only its mock is, in
cleanup_test.go), over an in-memory database.  Records are created `queued`
(spec §4.4), creation failing when no identifier is left; `MarkDelivered`
and `MarkAcked` are the idempotent status advances of spec §4.4, as
status-guarded updates that return no error: `queued → delivered`, and
`queued` or `delivered → acked`, every other message left as it is. -/
def memInboundRepo : InboundMessageRepository MemDB where
  Create := fun db p =>
    match db.freshIDs with
    | [] => (Except.error (GoError.base "no identifier left"), db)
    | id :: ids =>
      let m : InboundMessage :=
        { ID := id, AccountID := p.AccountID, ConversationKey := p.ConversationKey,
          KakaoPayload := p.KakaoPayload, NormalizedMessage := p.NormalizedMessage,
          CallbackURL := p.CallbackURL, CallbackExpiresAt := p.CallbackExpiresAt,
          SourceEventID := p.SourceEventID, Status := InboundMessageStatus.queued }
      (Except.ok m, { db with inbound := db.inbound ++ [m], freshIDs := ids })
  FindByID := fun db id => (Except.ok (db.inbound.find? (fun m => decide (m.ID = id))), db)
  FindQueuedByAccountID := fun db acc =>
    (Except.ok (db.inbound.filter (fun m => decide (m.AccountID = acc) &&
      decide (m.Status = InboundMessageStatus.queued))), db)
  MarkDelivered := fun db id =>
    (none, db.setInboundStatus id (fun st => decide (st = InboundMessageStatus.queued))
      InboundMessageStatus.delivered)
  MarkAcked := fun db id =>
    (none, db.setInboundStatus id (fun st => decide (st = InboundMessageStatus.queued) ||
      decide (st = InboundMessageStatus.delivered)) InboundMessageStatus.acked)
  CountByAccountID := fun db acc =>
    (Except.ok ((db.inbound.filter (fun m => decide (m.AccountID = acc))).length : Int), db)
  CountByAccountIDSince := fun db acc since =>
    (Except.ok ((db.inbound.filter (fun m => decide (m.AccountID = acc) &&
      db.createdSince m.ID since)).length : Int), db)

/-- Modelled from the spec: the outbound message repository, whose
implementation is not among the sources, over an in-memory database: records
are created `pending` (spec §4.4), creation failing when no identifier is
left. -/
def memOutboundRepo : OutboundMessageRepository MemDB where
  Create := fun db p =>
    match db.freshIDs with
    | [] => (Except.error (GoError.base "no identifier left"), db)
    | id :: ids =>
      let m : OutboundMessage :=
        { ID := id, AccountID := p.AccountID, ConversationKey := p.ConversationKey,
          Payload := p.Payload, Status := OutboundMessageStatus.pending, ErrorDetail := none }
      (Except.ok m, { db with outbound := db.outbound ++ [m], freshIDs := ids })
  MarkSent := fun db id =>
    (none, { db with outbound := db.outbound.map (fun m =>
      if m.ID = id then { m with Status := OutboundMessageStatus.sent } else m) })
  MarkFailed := fun db id e =>
    (none, { db with outbound := db.outbound.map (fun m =>
      if m.ID = id then { m with Status := OutboundMessageStatus.failed, ErrorDetail := some e }
      else m) })
  CountByAccountID := fun db acc =>
    (Except.ok ((db.outbound.filter (fun m => decide (m.AccountID = acc))).length : Int), db)
  CountByAccountIDSince := fun db acc since =>
    (Except.ok ((db.outbound.filter (fun m => decide (m.AccountID = acc) &&
      db.createdSince m.ID since)).length : Int), db)
  CountByAccountIDAndStatus := fun db acc st =>
    (Except.ok ((db.outbound.filter (fun m => decide (m.AccountID = acc) &&
      decide (m.Status = st))).length : Int), db)

/-- The message service over the in-memory repositories. -/
def memService : MessageService MemDB := ⟨memInboundRepo, memOutboundRepo⟩

/-- The world of the spec's reply scenario: an empty database, two open waits
on `conv-42` (oldest first) and one on another conversation. -/
def scenarioWorld : World MemDB :=
  { db := { inbound := [], outbound := [], freshIDs := ["msg-1", "msg-2"] },
    waits := [⟨"in-1", "conv-42"⟩, ⟨"in-2", "conv-42"⟩, ⟨"in-3", "conv-7"⟩],
    trace := [] }

/-- The inbound parameters of the spec's scenario. -/
def scenarioInbound : CreateInboundParams :=
  { AccountID := "tenant-1", ConversationKey := "conv-42", KakaoPayload := "{}",
    NormalizedMessage := "{}", CallbackURL := none, CallbackExpiresAt := none,
    SourceEventID := none }

/-- The outbound parameters of the spec's scenario. -/
def scenarioOutbound : CreateOutboundMessageParams :=
  { AccountID := "tenant-1", ConversationKey := "conv-42", Payload := "reply" }

/-- A world whose database holds one delivered and one queued inbound message. -/
def ackWorld : World MemDB :=
  { db := { inbound := [⟨"in-1", "tenant-1", "conv-42", "{}", "{}", none, none, none,
                InboundMessageStatus.delivered⟩,
              ⟨"in-2", "tenant-1", "conv-42", "{}", "{}", none, none, none,
                InboundMessageStatus.queued⟩],
            outbound := [], freshIDs := [] },
    waits := [], trace := [] }

/-- Whether a call is a repository call (not a log line, not a broker publish). -/
def Call.isRepository : Call → Bool
  | Call.log _ _ _ => false
  | Call.brokerPublish _ _ => false
  | _ => true

/-- Whether a call is one of the repositories' count queries. -/
def Call.isCountQuery : Call → Bool
  | Call.inboundCountByAccountID _ => true
  | Call.inboundCountByAccountIDSince _ _ => true
  | Call.outboundCountByAccountID _ => true
  | Call.outboundCountByAccountIDSince _ _ => true
  | Call.outboundCountByAccountIDAndStatus _ _ => true
  | _ => false

/-- The repository calls among the calls made since the trace was `n` long. -/
def repositoryCallsSince (n : Nat) (trace : List Call) : List Call :=
  (trace.drop n).filter Call.isRepository

/-- A count query of `GetQuickStats`: the call, the context its error is wrapped
with, and the repository method applied to the account. -/
structure CountQuery (σ : Type) where
  call : Call
  context : String
  run : σ → Except GoError Int × σ

/-- The five count queries of `GetQuickStats` in the order of message.go:126-154,
listed for comparison with the method itself: total and today's inbound, total
and today's outbound, failed outbound. -/
def MessageService.quickStatsQueries {σ : Type} (s : MessageService σ) (accountID : String)
    (now : GoTime) : List (CountQuery σ) :=
  [ ⟨Call.inboundCountByAccountID accountID, "count inbound messages",
      fun db => s.inboundRepo.CountByAccountID db accountID⟩,
    ⟨Call.inboundCountByAccountIDSince accountID (todayStart now), "count inbound today",
      fun db => s.inboundRepo.CountByAccountIDSince db accountID (todayStart now)⟩,
    ⟨Call.outboundCountByAccountID accountID, "count outbound messages",
      fun db => s.outboundRepo.CountByAccountID db accountID⟩,
    ⟨Call.outboundCountByAccountIDSince accountID (todayStart now), "count outbound today",
      fun db => s.outboundRepo.CountByAccountIDSince db accountID (todayStart now)⟩,
    ⟨Call.outboundCountByAccountIDAndStatus accountID OutboundMessageStatus.failed,
      "count failed messages",
      fun db => s.outboundRepo.CountByAccountIDAndStatus db accountID
        OutboundMessageStatus.failed⟩ ]

/-- Abort on the first failure, as spec §7 words it ("persistence failures abort
the operation"): the queries are issued in order, each on the database the previous one left, and none is issued after
the first that fails.  The result is the queries issued, each with what it
returned, and the database afterwards. -/
def runUntilError {σ : Type} : List (CountQuery σ) → σ →
    List (CountQuery σ × Except GoError Int) × σ
  | [], db => ([], db)
  | q :: rest, db =>
    match q.run db with
    | (Except.error e, db') => ([(q, Except.error e)], db')
    | (Except.ok n, db') =>
      ((q, Except.ok n) :: (runUntilError rest db').1, (runUntilError rest db').2)

/-- A world for the statistics examples: tenant-1 has two inbound messages, one
from the day before, and two outbound messages, one of them failed. -/
def statsWorld : World MemDB :=
  { db := { inbound := [⟨"in-1", "tenant-1", "conv-42", "{}", "{}", none, none, none,
                InboundMessageStatus.acked⟩,
              ⟨"in-2", "tenant-1", "conv-42", "{}", "{}", none, none, none,
                InboundMessageStatus.queued⟩,
              ⟨"in-3", "tenant-2", "conv-7", "{}", "{}", none, none, none,
                InboundMessageStatus.queued⟩],
            outbound := [⟨"out-1", "tenant-1", "conv-42", "a", OutboundMessageStatus.failed,
                some "timeout"⟩,
              ⟨"out-2", "tenant-1", "conv-42", "b", OutboundMessageStatus.sent, none⟩],
            freshIDs := [],
            createdAt := [("in-1", ⟨2026, 3, 14, 23, 59, 59, 0, seoul⟩),
              ("in-2", ⟨2026, 3, 15, 8, 30, 0, 0, seoul⟩),
              ("out-1", ⟨2026, 3, 14, 12, 0, 0, 0, seoul⟩),
              ("out-2", ⟨2026, 3, 15, 0, 0, 0, 0, seoul⟩)] },
    waits := [], trace := [] }

/-- The reading of the clock in the statistics examples. -/
def statsNow : GoTime := ⟨2026, 3, 15, 10, 20, 30, 400, seoul⟩

/-! ### ExpiryReaper (internal/jobs, collaborators mocked in cleanup_test.go) -/

/-- Modelled from the spec: whether the callback deadline of an inbound message
has elapsed at `now` (the `deadline < now` of spec §6); the inbound repository
is not among the sources. -/
def callbackElapsed (now : Nat) (m : InboundMessage) : Bool :=
  match m.CallbackExpiresAt with
  | some deadline => decide (deadline < now)
  | none => false

/-- Modelled from the spec: what one sweep does to one inbound message (spec
§4.5 (a); `InboundMessageRepository.MarkExpired` is not among the sources, only
its mock): a message still `queued` whose callback deadline or absolute
time-to-live has elapsed becomes `expired`, any other is left as it is.  How
the time-to-live of a message is measured is the parameter `ttlElapsed`. -/
def expireIfDue (ttlElapsed : Nat → InboundMessage → Bool) (now : Nat) (m : InboundMessage) :
    InboundMessage :=
  if m.Status = InboundMessageStatus.queued && (ttlElapsed now m || callbackElapsed now m) then
    { m with Status := InboundMessageStatus.expired }
  else m

/-- Modelled from the spec: whether one sweep removes a session (spec §4.5 (b);
`SessionRepository.DeleteExpired` is not among the sources, only its mock): it
is still `pending_pairing` and past its pairing deadline. -/
def sessionDue (now : Nat) (s : Session) : Bool :=
  decide (s.status = SessionStatus.pending_pairing) && decide (s.expiresAt < now)

/-- The durable rows a sweep works on. -/
structure ReaperState where
  inbound : List InboundMessage
  sessions : List Session
  deriving DecidableEq, Repr

/-- Modelled from the spec: one sweep of the cleanup job, whose file
internal/jobs/cleanup.go is not among the sources (only its test is): the
set-based `MarkExpired` on inbound messages and `DeleteExpired` on sessions of
spec §4.5, each returning its affected-row count.  The result is the two
counts and the rows afterwards. -/
def sweep (ttlElapsed : Nat → InboundMessage → Bool) (now : Nat) (st : ReaperState) :
    (Nat × Nat) × ReaperState :=
  (((st.inbound.filter (fun m => decide (expireIfDue ttlElapsed now m ≠ m))).length,
      (st.sessions.filter (sessionDue now)).length),
    { inbound := st.inbound.map (expireIfDue ttlElapsed now),
      sessions := st.sessions.filter (fun s => !sessionDue now s) })

/-- Rows for the reaper example: a queued message past its callback deadline, a
delivered one past it too, a pending session past its deadline and a paired
one. -/
def reaperState : ReaperState :=
  { inbound := [⟨"in-1", "tenant-1", "conv-42", "{}", "{}", none, some 50, none,
                  InboundMessageStatus.queued⟩,
                ⟨"in-2", "tenant-1", "conv-42", "{}", "{}", none, some 50, none,
                  InboundMessageStatus.delivered⟩],
    sessions := [scenarioSession,
      { scenarioSession with id := "sess-2", status := SessionStatus.paired }] }

/-! ### Accounts (internal/model/account.go, internal/repository/account.go) -/

/-- Embeds `model.Account` (account.go:7-13). -/
structure Account where
  ID : String
  RelayTokenHash : Option String
  RateLimitPerMin : Int
  CreatedAt : GoTime
  UpdatedAt : GoTime
  deriving DecidableEq, Repr

/-- Embeds `accountRepo.UpdateToken` (repository/account.go:111-121): the statement
`UPDATE accounts SET relay_token_hash = $2, updated_at = $3 WHERE id = $1
RETURNING *` on the accounts table, `now` being the reading of `time.Now()`.
`dbErr` is the error of a failing database, and `notFound` what
`HandleNotFound` (not among the sources) returns when no row matches.  The
result is Go's `(*Account, error)` and the table afterwards. -/
def UpdateToken (dbErr : Option GoError) (notFound : Except GoError (Option Account))
    (accounts : List Account) (id tokenHash : String) (now : GoTime) :
    Except GoError (Option Account) × List Account :=
  match dbErr with
  | some e => (Except.error e, accounts)
  | none =>
    let updated := accounts.map (fun a =>
      if a.ID = id then { a with RelayTokenHash := some tokenHash, UpdatedAt := now } else a)
    match updated.find? (fun a => decide (a.ID = id)) with
    | some a => (Except.ok (some a), updated)
    | none => (notFound, accounts)

/-- The hexadecimal digits `hex.EncodeToString` writes. -/
def hexDigits : List Char := "0123456789abcdef".toList

/-- Two accounts for the examples. -/
def exampleAccounts : List Account :=
  [ ⟨"acct-1", some "old-hash", 60, ⟨2026, 1, 2, 3, 4, 5, 0, utcLocation⟩,
      ⟨2026, 1, 2, 3, 4, 5, 0, utcLocation⟩⟩,
    ⟨"acct-2", none, 120, ⟨2026, 2, 3, 4, 5, 6, 0, utcLocation⟩, ⟨2026, 2, 3, 4, 5, 6, 0, utcLocation⟩⟩ ]

/-- Embeds `util.MaskCode` (crypto.go:36-41) on the bytes of the code: `len` counts
bytes and `code[:4]` is the first four bytes. -/
def MaskCode (code : List Nat) : List Nat :=
  if code.length ≤ 4 then stringBytes "****" else code.take 4 ++ stringBytes "-****"

/-! ### Dashboard listings (internal/handler/dashboard.go) -/

/-- The value of a decimal digit character, if it is one. -/
def digitValue (c : Char) : Option Nat :=
  if 48 ≤ c.toNat ∧ c.toNat ≤ 57 then some (c.toNat - 48) else none

/-- The number written by a sequence of decimal digits, read onto `acc`. -/
def parseDigits : List Char → Nat → Option Nat
  | [], acc => some acc
  | c :: cs, acc =>
    match digitValue c with
    | some d => parseDigits cs (acc * 10 + d)
    | none => none

/-- Go's `strconv.Atoi` on a 64-bit platform, as far as `err == nil` and the
value go: an optional sign and at least one decimal digit, the value within
the range of `int`; `none` is a non-nil error. -/
def Atoi (s : String) : Option Int :=
  match s.toList with
  | [] => none
  | c :: rest =>
    if c = '-' then
      if rest.isEmpty then none
      else (parseDigits rest 0).bind
        (fun n => if n ≤ 9223372036854775808 then some (-(n : Int)) else none)
    else if c = '+' then
      if rest.isEmpty then none
      else (parseDigits rest 0).bind
        (fun n => if n ≤ 9223372036854775807 then some (n : Int) else none)
    else (parseDigits (c :: rest) 0).bind
      (fun n => if n ≤ 9223372036854775807 then some (n : Int) else none)

/-- Go's `r.URL.Query().Get(name)`: the first value of the parameter, or the
empty string when it is absent. -/
def queryGet (q : List (String × String)) (name : String) : String :=
  match q.find? (fun p => decide (p.1 = name)) with
  | some p => p.2
  | none => ""

/-- Embeds `parsePagination` (dashboard.go:321-338); `atoi` is `strconv.Atoi`.  The
result is `(limit, offset)`. -/
def parsePagination (atoi : String → Option Int) (q : List (String × String)) : Int × Int :=
  let limit : Int :=
    if queryGet q "limit" ≠ "" then
      match atoi (queryGet q "limit") with
      | some parsed => if 0 < parsed ∧ parsed ≤ 100 then parsed else 20
      | none => 20
    else 20
  let offset : Int :=
    if queryGet q "offset" ≠ "" then
      match atoi (queryGet q "offset") with
      | some parsed => if 0 ≤ parsed then parsed else 0
      | none => 0
    else 0
  (limit, offset)

/-- The body of a JSON reply: an error object or the data written. -/
inductive ReplyBody (α : Type) where
  | error (msg : String)
  | data (value : α)
  deriving DecidableEq, Repr

/-- A JSON reply: status code and body. -/
structure Reply (α : Type) where
  status : Nat
  body : ReplyBody α
  deriving DecidableEq, Repr

/-- Embeds `DashboardHandler.ListSessions` (dashboard.go:212-233); `findRecent` is
`sessionService.FindRecent`.  The result is the limit `FindRecent` is called
with and the reply. -/
def ListSessions (atoi : String → Option Int) (q : List (String × String))
    (findRecent : Int → Except GoError (List Session)) : Int × Reply (List Session) :=
  let limit : Int :=
    if queryGet q "limit" ≠ "" then
      match atoi (queryGet q "limit") with
      | some parsed => if 0 < parsed ∧ parsed ≤ 100 then parsed else 50
      | none => 50
    else 50
  match findRecent limit with
  | Except.error _ => (limit, ⟨500, ReplyBody.error "Failed to list sessions"⟩)
  | Except.ok sessions => (limit, ⟨200, ReplyBody.data sessions⟩)

/-- The repository query `AccountMessages` makes: which table, and the account,
limit and offset it passes. -/
inductive MessagesQuery where
  | outboundFindByAccountID (accountID : String) (limit offset : Int)
  | inboundFindByAccountID (accountID : String) (limit offset : Int)
  deriving DecidableEq, Repr

/-- The limit a messages query carries. -/
def MessagesQuery.limit : MessagesQuery → Int
  | MessagesQuery.outboundFindByAccountID _ l _ => l
  | MessagesQuery.inboundFindByAccountID _ l _ => l

/-- The offset a messages query carries. -/
def MessagesQuery.offset : MessagesQuery → Int
  | MessagesQuery.outboundFindByAccountID _ _ o => o
  | MessagesQuery.inboundFindByAccountID _ _ o => o

/-- Embeds `DashboardHandler.AccountMessages` (dashboard.go:134-164); the two
functions are the repositories' `FindByAccountID`.  The result is the
repository query made and the reply. -/
def AccountMessages (atoi : String → Option Int) (q : List (String × String))
    (accountID : String)
    (findOutbound : String → Int → Int → Except GoError (List OutboundMessage))
    (findInbound : String → Int → Int → Except GoError (List InboundMessage)) :
    MessagesQuery × Reply (List OutboundMessage ⊕ List InboundMessage) :=
  let p := parsePagination atoi q
  if queryGet q "type" = "outbound" then
    match findOutbound accountID p.1 p.2 with
    | Except.error _ =>
      (MessagesQuery.outboundFindByAccountID accountID p.1 p.2,
        ⟨500, ReplyBody.error "Failed to get messages"⟩)
    | Except.ok msgs =>
      (MessagesQuery.outboundFindByAccountID accountID p.1 p.2,
        ⟨200, ReplyBody.data (Sum.inl msgs)⟩)
  else
    match findInbound accountID p.1 p.2 with
    | Except.error _ =>
      (MessagesQuery.inboundFindByAccountID accountID p.1 p.2,
        ⟨500, ReplyBody.error "Failed to get messages"⟩)
    | Except.ok msgs =>
      (MessagesQuery.inboundFindByAccountID accountID p.1 p.2,
        ⟨200, ReplyBody.data (Sum.inr msgs)⟩)

/-- A JSON value written by `ListAccounts`: a string or a number. -/
inductive JSONValue where
  | str (s : String)
  | num (n : Int)
  deriving DecidableEq, Repr

/-- The four fields every entry of `ListAccounts` starts with
(dashboard.go:96-101); `fmt` is `Format(time.RFC3339)`. -/
def accountBaseFields (fmt : GoTime → String) (acc : Account) : List (String × JSONValue) :=
  [("id", JSONValue.str acc.ID), ("rateLimitPerMinute", JSONValue.num acc.RateLimitPerMin),
    ("createdAt", JSONValue.str (fmt acc.CreatedAt)),
    ("updatedAt", JSONValue.str (fmt acc.UpdatedAt))]

/-- The five statistics fields added at dashboard.go:103-107. -/
def statsFields (st : QuickStats) : List (String × JSONValue) :=
  [("inboundToday", JSONValue.num st.InboundToday),
    ("inboundTotal", JSONValue.num st.InboundTotal),
    ("outboundToday", JSONValue.num st.OutboundToday),
    ("outboundTotal", JSONValue.num st.OutboundTotal),
    ("outboundFailed", JSONValue.num st.OutboundFailed)]

/-- The entry of one account (dashboard.go:96-108), `stats` being what
`GetQuickStats` returned for it: the map's keys and values in insertion order. -/
def accountEntry (fmt : GoTime → String) (acc : Account) (stats : Except GoError QuickStats) :
    List (String × JSONValue) :=
  match stats with
  | Except.ok st => accountBaseFields fmt acc ++ statsFields st
  | Except.error _ => accountBaseFields fmt acc

/-- The loop of `ListAccounts` (dashboard.go:95-110) from the `i`-th account on;
`clock i` is the reading of `time.Now()` in the `i`-th `GetQuickStats` call. -/
def listAccountEntries {σ : Type} (s : MessageService σ) (fmt : GoTime → String)
    (clock : Nat → GoTime) : Nat → World σ → List Account →
    List (List (String × JSONValue)) × World σ
  | _, w, [] => ([], w)
  | i, w, acc :: rest =>
    let r := s.GetQuickStats w acc.ID (clock i)
    let q := listAccountEntries s fmt clock (i + 1) r.2 rest
    (accountEntry fmt acc r.1 :: q.1, q.2)

/-- Embeds `DashboardHandler.ListAccounts` (dashboard.go:84-113); `found` is what
`accountRepo.FindAll(ctx, 100, 0)` returns. -/
def ListAccounts {σ : Type} (s : MessageService σ) (fmt : GoTime → String)
    (clock : Nat → GoTime) (w : World σ) (found : Except GoError (List Account)) :
    Reply (List (List (String × JSONValue))) × World σ :=
  match found with
  | Except.error _ => (⟨500, ReplyBody.error "Failed to list accounts"⟩, w)
  | Except.ok accounts =>
    let r := listAccountEntries s fmt clock 0 w accounts
    (⟨200, ReplyBody.data r.1⟩, r.2)

/-- An account with its credential hash blanked. -/
def eraseHash (acc : Account) : Account := { acc with RelayTokenHash := none }

/-- The keys an entry of `ListAccounts` can carry. -/
def entryKeys : List String :=
  ["id", "rateLimitPerMinute", "createdAt", "updatedAt", "inboundToday", "inboundTotal",
    "outboundToday", "outboundTotal", "outboundFailed"]

/-- A message service for the examples whose statistics fail for `acct-2`. -/
def flakyService : MessageService MemDB :=
  { inboundRepo := { memInboundRepo with
      CountByAccountID := fun db acc =>
        if acc = "acct-2" then (Except.error (GoError.base "connection reset"), db)
        else memInboundRepo.CountByAccountID db acc },
    outboundRepo := memOutboundRepo }

/-! ### Configuration (internal/config/config.go, cmd/server/main.go) -/

/-- Embeds `config.Config` (config.go:12-21). -/
structure Config where
  Port : Int
  DatabaseURL : String
  RedisURL : String
  KakaoSignatureSecret : String
  EncryptionKey : String
  QueueTTLSeconds : Int
  CallbackTTLSeconds : Int
  LogLevel : String
  deriving DecidableEq, Repr

/-- Go's `strings.HasPrefix(s, p)`. -/
def hasPrefix (s p : String) : Bool := p.toList.isPrefixOf s.toList

/-- The warning about an empty signature secret in production. -/
def warnSignatureSecret : String :=
  "KAKAO_SIGNATURE_SECRET is empty in production: webhook signature verification disabled"

/-- The warning about a `redis://` URL in production. -/
def warnRedisTLS : String :=
  "REDIS_URL uses redis:// (not TLS) in production: consider using rediss://"

/-- The warning about an empty encryption key in production. -/
def warnEncryptionKey : String :=
  "ENCRYPTION_KEY is empty in production: sensitive data will not be encrypted at rest"

/-- Embeds `Config.Validate` (config.go:35-49): the error returned (`none` is nil)
and the warning events it sends to the logger (`log.Warn()`), in order. -/
def Config.Validate (c : Config) (isProduction : Bool) : Option GoError × List String :=
  if isProduction then
    (none,
      (if c.KakaoSignatureSecret = "" then [warnSignatureSecret] else []) ++
      (if hasPrefix c.RedisURL "redis://" then [warnRedisTLS] else []) ++
      (if c.EncryptionKey = "" then [warnEncryptionKey] else []))
  else (none, [])

/-- What the validation step of `main` does next. -/
inductive StartupStep where
  | fatal (msg : String)
  | connectDatabase
  deriving DecidableEq, Repr

/-- The levels of zerolog that `setLogLevel` selects among. -/
inductive LogLevel where
  | debug
  | info
  | warn
  | error
  deriving DecidableEq, Repr

/-- Embeds `setLogLevel` (main.go:197-210): the global level chosen for the
configured name, `info` for an unknown one. -/
def setLogLevel (level : String) : LogLevel :=
  if level = "debug" then LogLevel.debug
  else if level = "info" then LogLevel.info
  else if level = "warn" then LogLevel.warn
  else if level = "error" then LogLevel.error
  else LogLevel.info

/-- Whether zerolog writes a warning event at the given global level: every
level but `error` lets it through. -/
def LogLevel.writesWarn : LogLevel → Bool
  | LogLevel.error => false
  | _ => true

/-- Embeds `main` from the setting of the log level to the validation step
(main.go:38-43), `kService` and `flyAppName` being the environment variables
`K_SERVICE` and `FLY_APP_NAME`: the next step, and the warnings written to the
log — those of `Validate`, unless the level set at main.go:38 drops them. -/
def mainValidate (cfg : Config) (kService flyAppName : String) : StartupStep × List String :=
  let level := setLogLevel cfg.LogLevel
  let isProduction := decide (kService ≠ "") || decide (flyAppName ≠ "")
  let written := if level.writesWarn then (cfg.Validate isProduction).2 else []
  match (cfg.Validate isProduction).1 with
  | some _ => (StartupStep.fatal "invalid configuration", written)
  | none => (StartupStep.connectDatabase, written)

/-- A production configuration with an empty signature secret, a `redis://`
URL and an empty encryption key. -/
def weakConfig : Config :=
  { Port := 8080, DatabaseURL := "postgres://db/relay", RedisURL := "redis://cache:6379",
    KakaoSignatureSecret := "", EncryptionKey := "", QueueTTLSeconds := 900,
    CallbackTTLSeconds := 55, LogLevel := "info" }

/-- The wall-clock second of 00:00:00 on the date of `t`, counted as if in UTC. -/
def midnightUnix (t : GoTime) : Int := daysFromCivil t.year t.month t.day * 86400

/-- The date of `t` is a calendar date: the month is 1..12 and the day exists in
it (counting the days and reading the date back gives the same date). -/
def dateInRange (t : GoTime) : Bool :=
  decide (1 ≤ t.month) && decide (t.month ≤ 12) &&
    decide (civilFromDays (daysFromCivil t.year t.month t.day) =
      ((t.year : Int), (t.month : Int), (t.day : Int)))

/-- Local midnight of the date of `t` exists in its location: the offset
`time.Date` settles on for 00:00:00 of that date is the offset in force at the
instant it arrives at. -/
def midnightExists (t : GoTime) : Bool :=
  decide ((t.location.lookup
      (midnightUnix t - dateOffset t.location (midnightUnix t))).offset =
    dateOffset t.location (midnightUnix t))

/-- A reading of the clock on 2026-03-08 in Havana, the day whose first hour
does not exist there. -/
def havanaNow : GoTime := ⟨2026, 3, 8, 10, 0, 0, 0, havana⟩

/-- A world whose only inbound message was created the evening before, at
23:30 on 2026-03-07 Havana time. -/
def havanaWorld : World MemDB :=
  { db := { inbound := [⟨"in-1", "tenant-1", "conv-42", "{}", "{}", none, none, none,
                InboundMessageStatus.queued⟩],
            outbound := [], freshIDs := [],
            createdAt := [("in-1", ⟨2026, 3, 7, 23, 30, 0, 0, havana⟩)] },
    waits := [], trace := [] }

/-- Embeds `DashboardHandler.RegenerateToken` (dashboard.go:248-267) together with
the repository it calls, `accountRepo.UpdateToken` of account.go:111-121, on
the accounts table: the response and the table afterwards.  `rnd` is what
`rand.Read` delivers, `now` the reading of `time.Now()` in `UpdateToken`. -/
def RegenerateTokenOn (rnd : Except String (List Nat)) (dbErr : Option GoError)
    (notFound : Except GoError (Option Account)) (accounts : List Account) (now : GoTime)
    (accountID : String) : Response × List Account :=
  match GenerateToken rnd with
  | (_, some _) => (⟨500, [("error", "Failed to generate token")]⟩, accounts)
  | (token, none) =>
    match (UpdateToken dbErr notFound accounts accountID (HashToken token) now).1 with
    | Except.error _ =>
      (⟨500, [("error", "Failed to regenerate token")]⟩,
        (UpdateToken dbErr notFound accounts accountID (HashToken token) now).2)
    | Except.ok _ =>
      (⟨200, [("relayToken", token)]⟩,
        (UpdateToken dbErr notFound accounts accountID (HashToken token) now).2)

/-- The world in which the `k`-th iteration (from 0) of the loop of
`ListAccounts` runs, the loop starting in `w` with clock index `i`: the world
left by the `GetQuickStats` calls for the accounts before it. -/
def worldBefore {σ : Type} (s : MessageService σ) (clock : Nat → GoTime) :
    Nat → World σ → List Account → Nat → World σ
  | _, w, _, 0 => w
  | _, w, [], _ + 1 => w
  | i, w, acc :: rest, k + 1 =>
    worldBefore s clock (i + 1) (s.GetQuickStats w acc.ID (clock i)).2 rest k

/-! ## Part II — theorems -/

/-! ### RateLimiter -/

theorem prune_prune (window : Nat) {t t' : Nat} (h : t ≤ t') (recs : List Nat) :
    prune window t' (prune window t recs) = prune window t' recs := by
  unfold prune
  rw [List.filter_filter]
  apply List.filter_congr
  intro x _
  by_cases hx : t' < x + window
  · have : t < x + window := by omega
    simp [hx, this]
  · simp [hx]

theorem prune_append (window t : Nat) (a b : List Nat) :
    prune window t (a ++ b) = prune window t a ++ prune window t b := by
  simp [prune]

theorem CheckLimit_allowed_iff (st : Store) (key : String) (limit : Int) (window now : Nat) :
    (CheckLimit st true key limit window now).1.1 = true ↔
      ((prune window now (st key)).length : Int) < limit := by
  unfold CheckLimit
  by_cases h : ((prune window now (st key)).length : Int) < limit
  · simp [h]
  · simp only [h, if_true, if_false, iff_false]
    cases oldest (prune window now (st key)) <;> simp

theorem CheckLimit_store_key (st : Store) (key : String) (limit : Int) (window now : Nat) :
    (CheckLimit st true key limit window now).2 key =
      prune window now (st key) ++
        (if (CheckLimit st true key limit window now).1.1 then [now] else []) := by
  unfold CheckLimit
  by_cases h : ((prune window now (st key)).length : Int) < limit
  · simp [h]
  · simp only [h, if_true, if_false]
    cases oldest (prune window now (st key)) <;> simp

theorem CheckLimit_store_other (st : Store) (healthy : Bool) (key : String) (limit : Int)
    (window now : Nat) (k : String) (hk : k ≠ key) :
    (CheckLimit st healthy key limit window now).2 k = st k := by
  unfold CheckLimit
  cases healthy
  · simp
  · by_cases h : ((prune window now (st key)).length : Int) < limit
    · simp [h, Function.update_noteq hk]
    · simp only [h, if_true, if_false]
      cases oldest (prune window now (st key)) <;> simp [Function.update_noteq hk]

theorem prune_length_le (window t : Nat) (recs : List Nat) :
    (prune window t recs).length ≤ recs.length := by
  unfold prune
  exact List.length_filter_le _ _

/-- The records kept for a key are, up to pruning, the records it started
with followed by the timestamps admitted since. -/
theorem runKey_store (key : String) (limit : Int) (window : Nat) (ts : List Nat) :
    ∀ (st : Store) (t' : Nat), (∀ s ∈ ts, s ≤ t') →
      prune window t' ((runKey st key limit window ts).1 key) =
        prune window t' (st key ++ (runKey st key limit window ts).2) := by
  induction ts with
  | nil => intro st t' _; simp [runKey]
  | cons t rest ih =>
    intro st t' hle
    have ht : t ≤ t' := hle t (List.mem_cons_self _ _)
    have hrest : ∀ s ∈ rest, s ≤ t' := fun s hs => hle s (List.mem_cons_of_mem _ hs)
    have h1 := ih (CheckLimit st true key limit window t).2 t' hrest
    simp only [runKey]
    rw [h1, CheckLimit_store_key]
    cases hA : (CheckLimit st true key limit window t).1.1
    · simp [prune_append, prune_prune window ht]
    · simp [prune_append, prune_prune window ht]

theorem runKey_admitted_sublist (key : String) (limit : Int) (window : Nat) (ts : List Nat) :
    ∀ st : Store, List.Sublist (runKey st key limit window ts).2 ts := by
  induction ts with
  | nil => intro st; simp [runKey]
  | cons t rest ih =>
    intro st
    simp only [runKey]
    cases (CheckLimit st true key limit window t).1.1
    · simpa using List.Sublist.cons t (ih _)
    · simpa using List.Sublist.cons₂ t (ih _)

theorem runKey_all_admitted (key : String) (limit : Int) (window : Nat) (ts : List Nat) :
    ∀ st : Store, (((st key).length + ts.length : Nat) : Int) ≤ limit →
      (runKey st key limit window ts).2 = ts := by
  induction ts with
  | nil => intro st _; simp [runKey]
  | cons t rest ih =>
    intro st h
    have hlen := prune_length_le window t (st key)
    have hA : (CheckLimit st true key limit window t).1.1 = true := by
      rw [CheckLimit_allowed_iff]
      simp only [List.length_cons] at h
      omega
    have hk := CheckLimit_store_key st key limit window t
    rw [hA] at hk
    have h2 := ih (CheckLimit st true key limit window t).2 (by
      rw [hk]
      simp only [if_true, List.length_append, List.length_cons, List.length_nil] at h ⊢
      omega)
    simp only [runKey, hA, if_true, h2]

/-- Whether the call made at `t` after the earlier calls `pre` is admitted is
decided by the admitted calls of `pre` in the trailing window ending at `t`. -/
theorem runKey_next_allowed_iff (key : String) (limit : Int) (window : Nat)
    (pre : List Nat) (t : Nat) (hs : ∀ s ∈ pre, s ≤ t) :
    (CheckLimit (runKey emptyStore key limit window pre).1 true key limit window t).1.1 = true ↔
      ((((runKey emptyStore key limit window pre).2.filter
          (fun s => decide (t < s + window))).length : Nat) : Int) < limit := by
  rw [CheckLimit_allowed_iff, runKey_store key limit window pre emptyStore t hs]
  simp [emptyStore, prune]

theorem oldest_eq_none {l : List Nat} (h : oldest l = none) : l = [] := by
  cases l with
  | nil => rfl
  | cons t rest =>
    simp only [oldest] at h
    cases h2 : oldest rest <;> simp [h2] at h

theorem oldest_spec : ∀ (l : List Nat) (o : Nat), oldest l = some o →
    o ∈ l ∧ ∀ s ∈ l, o ≤ s := by
  intro l
  induction l with
  | nil => intro o h; simp [oldest] at h
  | cons t rest ih =>
    intro o h
    simp only [oldest] at h
    cases h2 : oldest rest with
    | none =>
      have hr := oldest_eq_none h2
      subst hr
      simp [h2] at h
      subst h
      simp
    | some o2 =>
      simp [h2] at h
      obtain ⟨hm, hle⟩ := ih o2 h2
      subst h
      constructor
      · by_cases hto : t ≤ o2
        · simp [Nat.min_eq_left hto]
        · have : o2 ≤ t := by omega
          simp [Nat.min_eq_right this, hm]
      · intro s hs
        rcases List.mem_cons.mp hs with h3 | h3
        · subst h3; exact Nat.min_le_left _ _
        · exact le_trans (Nat.min_le_right _ _) (hle s h3)

theorem prune_mem {window now s : Nat} {recs : List Nat} (h : s ∈ prune window now recs) :
    s ∈ recs ∧ now < s + window := by
  unfold prune at h
  simpa using List.mem_filter.mp h

theorem prune_eq_self {window t : Nat} {recs : List Nat} (h : ∀ s ∈ recs, t < s + window) :
    prune window t recs = recs := by
  unfold prune
  exact List.filter_eq_self.mpr (fun s hs => by simpa using h s hs)

theorem prune_length_lt {window t o : Nat} {recs : List Nat} (ho : o ∈ recs)
    (hout : o + window ≤ t) : (prune window t recs).length < recs.length := by
  unfold prune
  apply List.length_filter_lt_length_iff_exists.mpr
  exact ⟨o, ho, by simp; omega⟩

theorem CheckLimit_congr (st st' : Store) (healthy : Bool) (key : String) (limit : Int)
    (window now : Nat) (h : st key = st' key) :
    (CheckLimit st healthy key limit window now).1 =
        (CheckLimit st' healthy key limit window now).1 ∧
      (CheckLimit st healthy key limit window now).2 key =
        (CheckLimit st' healthy key limit window now).2 key := by
  unfold CheckLimit
  cases healthy
  · simp [h]
  · rw [h]
    by_cases hc : ((prune window now (st' key)).length : Int) < limit
    · simp [hc]
    · simp only [hc, if_true, if_false]
      cases oldest (prune window now (st' key)) <;> simp

theorem runCalls_independent (k1 k2 : String) (hne : k1 ≠ k2) (calls : List LimitCall) :
    ∀ st st' : Store, st k2 = st' k2 →
      answersOn k2 (runCalls st calls) =
        answersOn k2 (runCalls st' (calls.filter (fun c => decide (c.key ≠ k1)))) := by
  induction calls with
  | nil => intro st st' _; simp [runCalls, answersOn]
  | cons c rest ih =>
    intro st st' h
    by_cases hc1 : c.key = k1
    · have hk2 : k2 ≠ c.key := by rw [hc1]; exact fun e => hne e.symm
      have hs := CheckLimit_store_other st c.healthy c.key c.limit c.window c.now k2 hk2
      have := ih (CheckLimit st c.healthy c.key c.limit c.window c.now).2 st' (by rw [hs, h])
      have hck : ¬ c.key = k2 := fun e => hk2 e.symm
      simp only [List.filter_cons, hc1, ne_eq, not_true_eq_false, decide_False,
        Bool.false_eq_true, if_false]
      simp only [runCalls, answersOn, List.filter_cons, hck, decide_False,
        Bool.false_eq_true, if_false]
      simpa [answersOn, hc1] using this
    · simp only [List.filter_cons, ne_eq, hc1, not_false_eq_true, decide_True, if_true]
      by_cases hc2 : c.key = k2
      · have hcg := CheckLimit_congr st st' c.healthy c.key c.limit c.window c.now
          (by rw [hc2]; exact h)
        have := ih (CheckLimit st c.healthy c.key c.limit c.window c.now).2
          (CheckLimit st' c.healthy c.key c.limit c.window c.now).2 (by
            have := hcg.2; rw [hc2] at this; rw [hc2]; exact this)
        simp only [runCalls, answersOn, List.filter_cons, hc2, decide_True, if_true,
          List.map_cons]
        rw [hc2] at hcg this
        rw [hcg.1]
        simpa [answersOn] using this
      · have hk2 : k2 ≠ c.key := fun e => hc2 e.symm
        have hs := CheckLimit_store_other st c.healthy c.key c.limit c.window c.now k2 hk2
        have hs' := CheckLimit_store_other st' c.healthy c.key c.limit c.window c.now k2 hk2
        have := ih (CheckLimit st c.healthy c.key c.limit c.window c.now).2
          (CheckLimit st' c.healthy c.key c.limit c.window c.now).2 (by rw [hs, hs', h])
        simp only [runCalls, answersOn, List.filter_cons, hc2, decide_False,
          Bool.false_eq_true, if_false]
        simpa [answersOn] using this

/-- A store whose key holds at most `limit` records keeps that bound under
every healthy `CheckLimit` call made with the same limit. -/
theorem CheckLimit_length_le (st : Store) (key : String) (limit : Int) (window now : Nat)
    (h : ((st key).length : Int) ≤ limit) :
    (((CheckLimit st true key limit window now).2 key).length : Int) ≤ limit := by
  have hlen := prune_length_le window now (st key)
  rw [CheckLimit_store_key]
  cases hA : (CheckLimit st true key limit window now).1.1
  · simp; omega
  · have := (CheckLimit_allowed_iff st key limit window now).mp hA
    simp; omega

/-- C1. On a fresh key, with limit at least 1 and calls made at non-decreasing
instants `pre` followed by a call at `t`: the call at `t` is admitted if and
only if the number of admitted earlier calls whose timestamp lies in the
trailing window ending at `t` is strictly less than `limit`.  In particular
the first `limit` calls are admitted, the call after `limit` calls that are
all still inside the window is denied, and a call made once the window has
fully elapsed after the last admitted call is admitted. -/
theorem C1_sliding_window_admission (key : String) (limit : Int) (window : Nat)
    (hl : 1 ≤ limit) (pre : List Nat) (t : Nat)
    (hs : (pre ++ [t]).Sorted (fun a b => a ≤ b)) :
    (nextAllowed key limit window pre t = true ↔
        ((((admittedAfter key limit window pre).filter
            (fun s => decide (t < s + window))).length : Nat) : Int) < limit) ∧
      ((pre.length : Int) < limit → nextAllowed key limit window pre t = true) ∧
      ((pre.length : Int) = limit → (∀ s ∈ pre, t < s + window) →
        nextAllowed key limit window pre t = false) ∧
      (∀ l, (admittedAfter key limit window pre).getLast? = some l → l + window ≤ t →
        nextAllowed key limit window pre t = true) := by
  have hpw := List.pairwise_append.mp hs
  have hle : ∀ s ∈ pre, s ≤ t := fun s hm => hpw.2.2 s hm t (List.mem_singleton_self t)
  have hiff := runKey_next_allowed_iff key limit window pre t hle
  have hsub := runKey_admitted_sublist key limit window pre emptyStore
  refine ⟨hiff, ?_, ?_, ?_⟩
  · intro hlt
    apply hiff.mpr
    have h1 := List.length_filter_le (fun s => decide (t < s + window))
      (runKey emptyStore key limit window pre).2
    have h2 := hsub.length_le
    omega
  · intro heq hin
    have hall := runKey_all_admitted key limit window pre emptyStore (by
      simp [emptyStore]; omega)
    have hnot : ¬ nextAllowed key limit window pre t = true := by
      intro hA
      have := hiff.mp hA
      simp only [hall] at this
      rw [List.filter_eq_self.mpr (fun s hm => by simpa using hin s hm)] at this
      omega
    simpa using hnot
  · intro l hlast hout
    apply hiff.mpr
    have hsorted : (admittedAfter key limit window pre).Sorted (fun a b => a ≤ b) :=
      List.Pairwise.sublist hsub hpw.1
    obtain ⟨ys, hys⟩ := List.getLast?_eq_some_iff.mp hlast
    have hall : ∀ s ∈ admittedAfter key limit window pre, s ≤ l := by
      intro s hm
      rw [hys] at hm hsorted
      rcases List.mem_append.mp hm with h3 | h3
      · exact (List.pairwise_append.mp hsorted).2.2 s h3 l (List.mem_singleton_self l)
      · rw [List.mem_singleton.mp h3]
    have hnil : (runKey emptyStore key limit window pre).2.filter
        (fun s => decide (t < s + window)) = [] := by
      apply List.filter_eq_nil_iff.mpr
      intro s hm
      have := hall s hm
      simp; omega
    rw [hnil]
    simp; omega

theorem C1_sliding_window_admission_witness :
    (1 : Int) ≤ 2 ∧ ([0, 1, 1] ++ [3]).Sorted (fun a b => a ≤ b) ∧
      nextAllowed "test:user2" 2 2 [0, 1, 1] 3 = true :=
  ⟨by decide, by decide,
    (C1_sliding_window_admission "test:user2" 2 2 (by decide) [0, 1, 1] 3 (by decide)).2.2.2
      1 (by decide) (by decide)⟩

/-- C2. When the shared store fails, `CheckLimit` denies — for every key,
limit, window and store contents — with a `resetAt` one window-length after
the instant of the call, strictly in the future for a positive window, and
records nothing. -/
theorem C2_fails_closed (st : Store) (key : String) (limit : Int) (window now : Nat) :
    (CheckLimit st false key limit window now).1.1 = false ∧
      (CheckLimit st false key limit window now).1.2 = now + window ∧
      (0 < window → now < (CheckLimit st false key limit window now).1.2) ∧
      (CheckLimit st false key limit window now).2 = st := by
  refine ⟨by simp [CheckLimit], by simp [CheckLimit], ?_, by simp [CheckLimit]⟩
  intro hw
  simp [CheckLimit]
  exact hw

theorem C2_fails_closed_witness :
    (0 : Nat) < 60 ∧ 5 < (CheckLimit emptyStore false "test:key" 1 60 5).1.2 :=
  ⟨by decide, (C2_fails_closed emptyStore "test:key" 1 60 5).2.2.1 (by decide)⟩

/-- C3. With limit at least 1 and a positive window, whenever `CheckLimit`
answers `allowed = false` the returned `resetAt` is strictly after the instant
of the call; with a healthy backend it is the oldest still-counted timestamp
plus the window, every call on that key from the instant of the denial up to
(excluding) `resetAt` is denied too, and — the key holding no more than `limit`
counted records — a call at `resetAt` is admitted. -/
theorem C3_resetAt_when_denied (st : Store) (healthy : Bool) (key : String) (limit : Int)
    (window now : Nat) (hl : 1 ≤ limit) (hw : 0 < window)
    (hden : (CheckLimit st healthy key limit window now).1.1 = false) :
    now < (CheckLimit st healthy key limit window now).1.2 ∧
      (healthy = true → ∃ o, o ∈ prune window now (st key) ∧
        (∀ s ∈ prune window now (st key), o ≤ s) ∧
        (CheckLimit st healthy key limit window now).1.2 = o + window ∧
        (∀ t', now ≤ t' → t' < o + window →
          (CheckLimit (CheckLimit st healthy key limit window now).2 true key limit window
            t').1.1 = false) ∧
        (((prune window now (st key)).length : Int) ≤ limit →
          (CheckLimit (CheckLimit st healthy key limit window now).2 true key limit window
            (o + window)).1.1 = true)) := by
  cases healthy with
  | false =>
    refine ⟨?_, by simp⟩
    simp [CheckLimit]
    exact hw
  | true =>
    have hnot : ¬ ((prune window now (st key)).length : Int) < limit := by
      intro h
      have := (CheckLimit_allowed_iff st key limit window now).mpr h
      rw [this] at hden
      exact Bool.noConfusion hden
    have hkey := CheckLimit_store_key st key limit window now
    rw [hden] at hkey
    simp only [Bool.false_eq_true, if_false, List.append_nil] at hkey
    cases ho : oldest (prune window now (st key)) with
    | none =>
      have := oldest_eq_none ho
      rw [this] at hnot
      simp at hnot
      omega
    | some o =>
      obtain ⟨hmem, hmin⟩ := oldest_spec _ o ho
      have hreset : (CheckLimit st true key limit window now).1.2 = o + window := by
        simp [CheckLimit, hnot, ho]
      have hin := (prune_mem hmem).2
      refine ⟨by rw [hreset]; exact hin, fun _ => ⟨o, hmem, hmin, hreset, ?_, ?_⟩⟩
      · intro t' _ ht'
        have hself : prune window t' (prune window now (st key)) = prune window now (st key) :=
          prune_eq_self (fun s hs => by have := hmin s hs; omega)
        have hn : ¬ (CheckLimit (CheckLimit st true key limit window now).2 true key limit
            window t').1.1 = true := by
          rw [CheckLimit_allowed_iff, hkey, hself]
          exact hnot
        simpa using hn
      · intro hbound
        rw [CheckLimit_allowed_iff, hkey]
        have := prune_length_lt (t := o + window) hmem (le_refl _)
        omega

theorem C3_resetAt_when_denied_witness :
    (1 : Int) ≤ 1 ∧ (0 : Nat) < 10 ∧
      (CheckLimit (Function.update emptyStore "k" [4]) true "k" 1 10 7).1.1 = false ∧
      7 < (CheckLimit (Function.update emptyStore "k" [4]) true "k" 1 10 7).1.2 :=
  ⟨by decide, by decide, by decide,
    (C3_resetAt_when_denied (Function.update emptyStore "k" [4]) true "k" 1 10 7
      (by decide) (by decide) (by decide)).1⟩

/-- C4. Distinct keys are independent: for keys `k1 ≠ k2`, any store and any
sequence of `CheckLimit` calls (any limits, windows, instants and backend
health), the answers given to the calls on `k2` are the same as when every call
on `k1` is removed from the sequence. -/
theorem C4_keys_independent (k1 k2 : String) (hne : k1 ≠ k2) (st : Store)
    (calls : List LimitCall) :
    answersOn k2 (runCalls st calls) =
      answersOn k2 (runCalls st (calls.filter (fun c => decide (c.key ≠ k1)))) :=
  runCalls_independent k1 k2 hne calls st st rfl

theorem C4_keys_independent_witness :
    "test:independent1" ≠ "test:independent2" ∧
      answersOn "test:independent2" (runCalls emptyStore
        [⟨"test:independent1", 1, 10, 0, true⟩, ⟨"test:independent1", 1, 10, 1, true⟩,
          ⟨"test:independent2", 1, 10, 2, true⟩]) =
      answersOn "test:independent2" (runCalls emptyStore
        ([⟨"test:independent1", 1, 10, 0, true⟩, ⟨"test:independent1", 1, 10, 1, true⟩,
          (⟨"test:independent2", 1, 10, 2, true⟩ : LimitCall)].filter
            (fun c => decide (c.key ≠ "test:independent1")))) :=
  ⟨by decide, C4_keys_independent "test:independent1" "test:independent2" (by decide)
    emptyStore _⟩

/-! ### SessionManager: pairing -/

theorem claimable_pending {code : String} {now : Nat} {s : Session}
    (h : claimable code now s = true) :
    s.pairingCode = code ∧ s.status = SessionStatus.pending_pairing ∧ now < s.expiresAt := by
  simpa [claimable, and_assoc] using h

theorem claimFirst_none_of_no_pending (code conv : String) (now : Nat) :
    ∀ ss : List Session, pendingWithCode code ss = [] → claimFirst code conv now ss = none := by
  intro ss
  induction ss with
  | nil => intro _; rfl
  | cons s rest ih =>
    intro h
    unfold pendingWithCode at h
    have hs := List.filter_eq_nil_iff.mp h
    have h1 : claimable code now s = false := by
      have := hs s (List.mem_cons_self _ _)
      cases hc : claimable code now s
      · rfl
      · obtain ⟨a, b, _⟩ := claimable_pending hc
        simp [a, b] at this
    have h2 : pendingWithCode code rest = [] := by
      unfold pendingWithCode
      exact List.filter_eq_nil_iff.mpr (fun x hx => hs x (List.mem_cons_of_mem _ hx))
    simp [claimFirst, h1, ih h2]

theorem claimFirst_some (code conv : String) (now : Nat) :
    ∀ (ss : List Session) (c : Session) (ss' : List Session),
      claimFirst code conv now ss = some (c, ss') →
        claimable code now c = true ∧ c ∈ pendingWithCode code ss ∧
          markPaired c conv ∈ ss' ∧
          (pendingWithCode code ss).length = (pendingWithCode code ss').length + 1 := by
  intro ss
  induction ss with
  | nil => intro c ss' h; simp [claimFirst] at h
  | cons s rest ih =>
    intro c ss' h
    by_cases hc : claimable code now s = true
    · simp [claimFirst, hc] at h
      obtain ⟨h1, h2⟩ := h
      subst h1
      subst h2
      obtain ⟨a, b, _⟩ := claimable_pending hc
      refine ⟨hc, ?_, List.mem_cons_self _ _, ?_⟩
      · simp [pendingWithCode, List.filter_cons, a, b]
      · simp [pendingWithCode, List.filter_cons, a, b, markPaired]
    · simp only [claimFirst, hc, Bool.false_eq_true, if_false] at h
      cases hr : claimFirst code conv now rest with
      | none => simp [hr] at h
      | some q =>
        obtain ⟨c2, r2⟩ := q
        simp [hr] at h
        obtain ⟨h1, h2⟩ := h
        subst h1
        subst h2
        obtain ⟨hcl, hmem, hmk, hlen⟩ := ih c2 r2 hr
        refine ⟨hcl, ?_, List.mem_cons_of_mem _ hmk, ?_⟩
        · unfold pendingWithCode at hmem ⊢
          rw [List.filter_cons]
          split
          · exact List.mem_cons_of_mem _ hmem
          · exact hmem
        · unfold pendingWithCode at hlen ⊢
          rw [List.filter_cons, List.filter_cons]
          split
          · simp only [List.length_cons]; omega
          · exact hlen

theorem claimFirst_none (code conv : String) (now : Nat) :
    ∀ ss : List Session, claimFirst code conv now ss = none →
      ∀ x ∈ ss, claimable code now x = false := by
  intro ss
  induction ss with
  | nil => intro _ x hx; simp at hx
  | cons s rest ih =>
    intro h x hx
    by_cases hc : claimable code now s = true
    · simp [claimFirst, hc] at h
    · simp only [claimFirst, hc, Bool.false_eq_true, if_false] at h
      cases hr : claimFirst code conv now rest with
      | some q => simp [hr] at h
      | none =>
        rcases List.mem_cons.mp hx with h3 | h3
        · subst h3; simpa using hc
        · exact ih hr x h3

theorem findMapping_upsert (m : ConversationMapping) :
    ∀ ms : List ConversationMapping,
      findMapping m.conversationKey (upsertMapping m ms) = some m := by
  intro ms
  induction ms with
  | nil => simp [upsertMapping, findMapping]
  | cons x rest ih =>
    by_cases hx : x.conversationKey = m.conversationKey
    · simp [upsertMapping, findMapping, hx]
    · simp only [upsertMapping, hx, if_false]
      unfold findMapping at ih ⊢
      rw [List.find?_cons]
      simp [hx, ih]

/-- A failing `Pair` changes nothing. -/
theorem Pair_error_unchanged (tenantOf : Session → String) (w : PairingState)
    (code conv : String) (now : Nat)
    (h : claimFirst code conv now w.sessions = none) :
    (Pair tenantOf w code conv now).2 = w ∧
      ((pendingWithCode code w.sessions = [] →
          (Pair tenantOf w code conv now).1 = Except.error PairError.AlreadyPaired ∨
          (Pair tenantOf w code conv now).1 = Except.error PairError.NotFound) ∧
        (pendingWithCode code w.sessions ≠ [] →
          (Pair tenantOf w code conv now).1 = Except.error PairError.Expired)) := by
  unfold Pair
  rw [h]
  by_cases hp : pendingWithCode code w.sessions = []
  · simp only [hp, List.isEmpty_nil, if_true]
    split <;> simp
  · have : (pendingWithCode code w.sessions).isEmpty = false := by
      cases hq : pendingWithCode code w.sessions with
      | nil => exact absurd hq hp
      | cons a b => rfl
    simp [this, hp]

/-- No `Pair` call makes a session pending again: codes without a pending
session stay so. -/
theorem Pair_no_pending (tenantOf : Session → String) (c : String) (w : PairingState)
    (code conv : String) (now : Nat) (h : pendingWithCode c w.sessions = []) :
    pendingWithCode c (Pair tenantOf w code conv now).2.sessions = [] := by
  cases hcl : claimFirst code conv now w.sessions with
  | none => rw [(Pair_error_unchanged tenantOf w code conv now hcl).1]; exact h
  | some q =>
    obtain ⟨s, ss'⟩ := q
    have hss : (Pair tenantOf w code conv now).2.sessions = ss' := by simp [Pair, hcl]
    rw [hss]
    clear hss
    revert ss' s
    generalize w.sessions = l at h
    induction l with
    | nil => intro s ss' hcl; simp [claimFirst] at hcl
    | cons x rest ih =>
      intro s ss' hcl
      have hfil := List.filter_eq_nil_iff.mp h
      have hx := hfil x (List.mem_cons_self _ _)
      have hrest : pendingWithCode c rest = [] :=
        List.filter_eq_nil_iff.mpr (fun y hy => hfil y (List.mem_cons_of_mem _ hy))
      by_cases hc : claimable code now x = true
      · simp [claimFirst, hc] at hcl
        rw [← hcl.2]
        unfold pendingWithCode
        rw [List.filter_cons]
        simp only [markPaired]
        simp
        intro a ha hca hst
        have := List.filter_eq_nil_iff.mp hrest a ha
        simp [hca, hst] at this
      · simp only [claimFirst, hc, Bool.false_eq_true, if_false] at hcl
        cases hr : claimFirst code conv now rest with
        | none => simp [hr] at hcl
        | some q2 =>
          obtain ⟨c2, r2⟩ := q2
          simp [hr] at hcl
          rw [← hcl.2]
          have := ih hrest c2 r2 hr
          unfold pendingWithCode at this ⊢
          rw [List.filter_cons]
          rw [if_neg hx]
          exact this

theorem runPairs_no_pending (tenantOf : Session → String) (c : String) (later : List PairCall) :
    ∀ w : PairingState, pendingWithCode c w.sessions = [] →
      pendingWithCode c (runPairs tenantOf w later).sessions = [] := by
  induction later with
  | nil => intro w h; exact h
  | cons p rest ih =>
    intro w h
    exact ih _ (Pair_no_pending tenantOf c w p.code p.conv p.now h)

theorem claimFirst_split (code conv : String) (now : Nat) :
    ∀ (ss : List Session) (c : Session) (ss' : List Session),
      claimFirst code conv now ss = some (c, ss') →
        ∃ pre post, ss = pre ++ c :: post ∧ ss' = pre ++ markPaired c conv :: post := by
  intro ss
  induction ss with
  | nil => intro c ss' h; simp [claimFirst] at h
  | cons x rest ih =>
    intro c ss' h
    by_cases hc : claimable code now x = true
    · simp [claimFirst, hc] at h
      obtain ⟨h1, h2⟩ := h
      subst h1
      subst h2
      exact ⟨[], rest, rfl, rfl⟩
    · simp only [claimFirst, hc, Bool.false_eq_true, if_false] at h
      cases hr : claimFirst code conv now rest with
      | none => simp [hr] at h
      | some q =>
        obtain ⟨c2, r2⟩ := q
        simp [hr] at h
        obtain ⟨h1, h2⟩ := h
        subst h1
        subst h2
        obtain ⟨pre, post, hpre, hpost⟩ := ih c2 r2 hr
        exact ⟨x :: pre, post, by rw [hpre]; rfl, by rw [hpost]; rfl⟩

theorem findMapping_upsert_other (m : ConversationMapping) (k : String)
    (hk : k ≠ m.conversationKey) :
    ∀ ms : List ConversationMapping,
      findMapping k (upsertMapping m ms) = findMapping k ms := by
  intro ms
  induction ms with
  | nil =>
    have : ¬ m.conversationKey = k := fun e => hk e.symm
    simp [upsertMapping, findMapping, this]
  | cons x rest ih =>
    by_cases hx : x.conversationKey = m.conversationKey
    · have h1 : ¬ m.conversationKey = k := fun e => hk e.symm
      have h2 : ¬ x.conversationKey = k := fun e => hk (by rw [← e, hx])
      simp [upsertMapping, findMapping, hx, h1]
    · simp only [upsertMapping, hx, if_false]
      unfold findMapping at ih ⊢
      rw [List.find?_cons, List.find?_cons, ih]

/-- C5. For a state in which exactly one `pending_pairing` session `s` holds
the code `c`: a `Pair(c, conv)` made before the deadline of `s` succeeds and
returns `s` with status `paired` and conversation key `conv`, every other
field as it was; in the session table that row takes the place of `s` and no
other row changes; `conv` is mapped to the tenant of `s` in state `paired` and
the mapping of every other conversation key is as before.  After it — and
after any further `Pair` calls — every `Pair` with the code `c` fails with
`AlreadyPaired` or `NotFound` and leaves sessions and conversation mappings
unchanged; and a `Pair` with the code `c` made at or after the deadline of `s`
fails (with `Expired`) and changes nothing. -/
theorem C5_pair_at_most_once (tenantOf : Session → String) (w : PairingState) (s : Session)
    (c conv : String) (now : Nat) (hone : pendingWithCode c w.sessions = [s]) :
    (now < s.expiresAt →
      (Pair tenantOf w c conv now).1 =
        Except.ok { id := s.id, tokenHash := s.tokenHash, pairingCode := s.pairingCode,
                    status := SessionStatus.paired, createdAt := s.createdAt,
                    expiresAt := s.expiresAt, conversationKey := some conv,
                    metadata := s.metadata } ∧
      (∃ pre post, w.sessions = pre ++ s :: post ∧
        (Pair tenantOf w c conv now).2.sessions =
          pre ++ { id := s.id, tokenHash := s.tokenHash, pairingCode := s.pairingCode,
                   status := SessionStatus.paired, createdAt := s.createdAt,
                   expiresAt := s.expiresAt, conversationKey := some conv,
                   metadata := s.metadata } :: post) ∧
      findMapping conv (Pair tenantOf w c conv now).2.mappings =
        some { conversationKey := conv, tenant := tenantOf s, state := MappingState.paired } ∧
      (∀ k, k ≠ conv →
        findMapping k (Pair tenantOf w c conv now).2.mappings = findMapping k w.mappings) ∧
      ∀ (later : List PairCall) (conv' : String) (now' : Nat),
        ((Pair tenantOf (runPairs tenantOf (Pair tenantOf w c conv now).2 later) c conv'
              now').1 = Except.error PairError.AlreadyPaired ∨
          (Pair tenantOf (runPairs tenantOf (Pair tenantOf w c conv now).2 later) c conv'
              now').1 = Except.error PairError.NotFound) ∧
        (Pair tenantOf (runPairs tenantOf (Pair tenantOf w c conv now).2 later) c conv'
            now').2 = runPairs tenantOf (Pair tenantOf w c conv now).2 later) ∧
    (s.expiresAt ≤ now →
      (Pair tenantOf w c conv now).1 = Except.error PairError.Expired ∧
      (Pair tenantOf w c conv now).2 = w) := by
  have hsmem : s ∈ pendingWithCode c w.sessions := by rw [hone]; exact List.mem_singleton_self s
  have hsin : s ∈ w.sessions := (List.mem_filter.mp hsmem).1
  have hsp : s.pairingCode = c ∧ s.status = SessionStatus.pending_pairing := by
    simpa using (List.mem_filter.mp hsmem).2
  constructor
  · intro hnow
    have hcl : claimable c now s = true := by simp [claimable, hsp.1, hsp.2, hnow]
    cases hcf : claimFirst c conv now w.sessions with
    | none =>
      have := claimFirst_none c conv now w.sessions hcf s hsin
      rw [hcl] at this
      exact Bool.noConfusion this
    | some q =>
      obtain ⟨c0, ss'⟩ := q
      obtain ⟨_, hc0, _, hlen⟩ := claimFirst_some c conv now w.sessions c0 ss' hcf
      obtain ⟨pre, post, hpre, hpost⟩ := claimFirst_split c conv now w.sessions c0 ss' hcf
      rw [hone] at hc0 hlen
      have hc0s : c0 = s := List.mem_singleton.mp hc0
      subst hc0s
      have hnil : pendingWithCode c ss' = [] := by
        apply List.eq_nil_of_length_eq_zero
        simp only [List.length_singleton] at hlen
        omega
      have hP : Pair tenantOf w c conv now =
          (Except.ok (markPaired c0 conv),
            { sessions := ss',
              mappings := upsertMapping ⟨conv, tenantOf c0, MappingState.paired⟩
                w.mappings }) := by
        simp [Pair, hcf]
      rw [hP]
      refine ⟨rfl, ⟨pre, post, hpre, hpost⟩, ?_, ?_, ?_⟩
      · exact findMapping_upsert ⟨conv, tenantOf c0, MappingState.paired⟩ w.mappings
      · intro k hk
        exact findMapping_upsert_other ⟨conv, tenantOf c0, MappingState.paired⟩ k hk w.mappings
      · intro later conv' now'
        have hno := runPairs_no_pending tenantOf c later
          { sessions := ss',
            mappings := upsertMapping ⟨conv, tenantOf c0, MappingState.paired⟩ w.mappings }
          hnil
        have hcn := claimFirst_none_of_no_pending c conv' now' _ hno
        have hE := Pair_error_unchanged tenantOf _ c conv' now' hcn
        exact ⟨hE.2.1 hno, hE.1⟩
  · intro hpast
    have hcn : claimFirst c conv now w.sessions = none := by
      cases hcf : claimFirst c conv now w.sessions with
      | none => rfl
      | some q =>
        obtain ⟨c0, ss'⟩ := q
        obtain ⟨hcl, hc0, _, _⟩ := claimFirst_some c conv now w.sessions c0 ss' hcf
        rw [hone] at hc0
        have hc0s : c0 = s := List.mem_singleton.mp hc0
        subst hc0s
        have := (claimable_pending hcl).2.2
        omega
    have hE := Pair_error_unchanged tenantOf w c conv now hcn
    exact ⟨hE.2.2 (by rw [hone]; simp), hE.1⟩

theorem C5_pair_at_most_once_witness :
    pendingWithCode "ABCD-1234" scenarioState.sessions = [scenarioSession] ∧
      5 < scenarioSession.expiresAt ∧
      (Pair (fun s => s.id) scenarioState "ABCD-1234" "conv-42" 5).1 =
        Except.ok { id := "sess-1", tokenHash := "h", pairingCode := "ABCD-1234",
                    status := SessionStatus.paired, createdAt := 0, expiresAt := 300,
                    conversationKey := some "conv-42", metadata := none } :=
  ⟨by decide, by decide,
    ((C5_pair_at_most_once (fun s => s.id) scenarioState scenarioSession "ABCD-1234" "conv-42" 5
      (by decide)).1 (by decide)).1⟩

/-! ### Session-creation throttling -/

/-- C6 (evaluation at the failing input). Twelve session-creation requests from
one IP, one per second: on `POST /v1/sessions/create` the first ten reach the
handler and the eleventh and twelfth are rate limited, while on
`POST /dashboard/api/sessions/create` all twelve reach
`DashboardHandler.CreateSession`, which invokes `SessionService.CreateSession`. -/
theorem C6_dashboard_create_session_unthrottled :
    serveAll (fun _ => true) true emptyStore
        (burst "POST" "/v1/sessions/create" "203.0.113.7" 12) =
      List.replicate 10 (Outcome.reached HandlerId.sessionCreateSession) ++
        [Outcome.rateLimited (5 * minute), Outcome.rateLimited (5 * minute)] ∧
    serveAll (fun _ => true) true emptyStore
        (burst "POST" "/dashboard/api/sessions/create" "203.0.113.7" 12) =
      List.replicate 12 (Outcome.reached HandlerId.dashCreateSession) ∧
    invokesCreateSession HandlerId.dashCreateSession = true := by
  decide

/-! ### Token hashing -/

theorem sha256Round_length (st : List Nat) (kw : Nat × Nat) :
    (sha256Round st kw).length = st.length := by
  unfold sha256Round
  split <;> simp

theorem foldl_sha256Round_length (kws : List (Nat × Nat)) :
    ∀ st : List Nat, (kws.foldl sha256Round st).length = st.length := by
  induction kws with
  | nil => intro st; rfl
  | cons kw rest ih =>
    intro st
    rw [List.foldl_cons, ih, sha256Round_length]

theorem compress_length (h block : List Nat) : (compress h block).length = h.length := by
  unfold compress
  rw [List.length_zipWith, foldl_sha256Round_length]
  exact Nat.min_self _

theorem foldl_compress_length (blocks : List (List Nat)) :
    ∀ h : List Nat, (blocks.foldl compress h).length = h.length := by
  induction blocks with
  | nil => intro h; rfl
  | cons b rest ih =>
    intro h
    rw [List.foldl_cons, ih, compress_length]

theorem wordBytes_length (ws : List Nat) :
    ((ws.map (fun w => (List.range 4).map (fun i => (w >>> (8 * (3 - i))) % 256))).flatten).length
      = 4 * ws.length := by
  induction ws with
  | nil => rfl
  | cons w rest ih =>
    rw [List.map_cons, List.flatten_cons, List.length_append, ih]
    simp only [List.length_map, List.length_range, List.length_cons]
    omega

theorem Sum256_length (msg : List Nat) : (Sum256 msg).length = 32 := by
  unfold Sum256
  rw [wordBytes_length, foldl_compress_length]
  rfl

theorem hexEncodeToString_length (bs : List Nat) :
    (hexEncodeToString bs).length = 2 * bs.length := by
  unfold hexEncodeToString
  show (bs.flatMap (fun b => [hexDigit (b / 16), hexDigit (b % 16)])).length = 2 * bs.length
  induction bs with
  | nil => rfl
  | cons b rest ih =>
    rw [List.flatMap_cons, List.length_append, ih]
    simp only [List.length_cons, List.length_nil]
    omega

/-- C7 (as amended). The stored credential is an unsalted hash: `HashToken` of
a token is the lowercase hexadecimal encoding, 64 characters long, of the
SHA-256 digest of the token's bytes alone, and `RegenerateToken` hands the
repository exactly `HashToken` of the token it generated, the same value for
every account. -/
theorem C7_token_hash_of_token_alone (token : String) (bytes : List Nat) (updateOk : Bool)
    (accountID : String) :
    HashToken token = hexEncodeToString (Sum256 (stringBytes token)) ∧
      (HashToken token).length = 64 ∧
      (RegenerateToken (Except.ok bytes) updateOk accountID).1 =
        [(accountID, HashToken (hexEncodeToString (bytes.take tokenBytes)))] := by
  refine ⟨rfl, ?_, ?_⟩
  · unfold HashToken
    rw [hexEncodeToString_length, Sum256_length]
  · cases updateOk <;> simp [RegenerateToken, GenerateToken]

set_option maxRecDepth 100000 in
/-- C7 (counterexample). The value stored for a token is its plain SHA-256
digest, with no salt: for the token `abc` it is the standard test vector of
SHA-256, and two different accounts that are given the same token (64 zeros)
store the same hash. -/
theorem C7_token_hash_is_not_salted :
    HashToken "abc" = "ba7816bf8f01cfea414140de5dae2223b00361a396177a9cb410ff61f20015ad" ∧
      (RegenerateToken (Except.ok (List.replicate 32 0)) true "acct-1").1 =
        [("acct-1", "60e05bd1b195af2f94112fa7197a5c88289058840ce7c6df9693756bc6250f55")] ∧
      (RegenerateToken (Except.ok (List.replicate 32 0)) true "acct-2").1 =
        [("acct-2", "60e05bd1b195af2f94112fa7197a5c88289058840ce7c6df9693756bc6250f55")] := by
  decide

/-! ### MessageService -/

theorem CreateInbound_ok {σ : Type} (s : MessageService σ) (w : World σ)
    (params : CreateInboundParams) (msg : InboundMessage) (db' : σ)
    (hok : s.inboundRepo.Create w.db params.toModel = (Except.ok msg, db')) :
    s.CreateInbound w params =
      (Except.ok msg,
        { db := db', waits := w.waits,
          trace := w.trace ++ [Call.inboundCreate params.toModel,
            Call.log "info" "inbound message created"
              [("messageId", msg.ID), ("accountId", params.AccountID),
                ("conversationKey", params.ConversationKey)]] }) := by
  simp only [MessageService.CreateInbound, hok]

theorem CreateOutbound_ok {σ : Type} (s : MessageService σ) (w : World σ)
    (params : CreateOutboundMessageParams) (msg : OutboundMessage) (db' : σ)
    (hok : s.outboundRepo.Create w.db params = (Except.ok msg, db')) :
    s.CreateOutbound w params =
      (Except.ok msg,
        { db := db', waits := w.waits,
          trace := w.trace ++ [Call.outboundCreate params,
            Call.log "info" "outbound message created"
              [("messageId", msg.ID), ("accountId", params.AccountID),
                ("conversationKey", params.ConversationKey)]] }) := by
  simp only [MessageService.CreateOutbound, hok]

/-- C8 (as amended). For every parameter set for which the repository `Create`
succeeds, `CreateInbound` stores the record through exactly one
`inboundRepo.Create` call carrying the caller's seven parameters, writes one
log line and returns the stored message as the repository created it; it makes
no `EventBroker.Publish` call. -/
theorem C8_create_inbound_persists_without_publish {σ : Type} (s : MessageService σ)
    (w : World σ) (params : CreateInboundParams) (msg : InboundMessage) (db' : σ)
    (hok : s.inboundRepo.Create w.db params.toModel = (Except.ok msg, db')) :
    (s.CreateInbound w params).1 = Except.ok msg ∧
      (s.CreateInbound w params).2.db = db' ∧
      (s.CreateInbound w params).2.trace =
        w.trace ++ [Call.inboundCreate params.toModel,
          Call.log "info" "inbound message created"
            [("messageId", msg.ID), ("accountId", params.AccountID),
              ("conversationKey", params.ConversationKey)]] ∧
      (((s.CreateInbound w params).2.trace.drop w.trace.length).filter Call.isPublish).length
        = 0 := by
  rw [CreateInbound_ok s w params msg db' hok]
  refine ⟨rfl, rfl, rfl, ?_⟩
  simp [Call.isPublish]

theorem C8_create_inbound_persists_without_publish_witness :
    memService.inboundRepo.Create scenarioWorld.db scenarioInbound.toModel =
        (Except.ok ⟨"msg-1", "tenant-1", "conv-42", "{}", "{}", none, none, none,
            InboundMessageStatus.queued⟩,
          { inbound := [⟨"msg-1", "tenant-1", "conv-42", "{}", "{}", none, none, none,
              InboundMessageStatus.queued⟩], outbound := [], freshIDs := ["msg-2"] }) ∧
      (memService.CreateInbound scenarioWorld scenarioInbound).1 =
        Except.ok ⟨"msg-1", "tenant-1", "conv-42", "{}", "{}", none, none, none,
          InboundMessageStatus.queued⟩ :=
  ⟨rfl, (C8_create_inbound_persists_without_publish memService scenarioWorld scenarioInbound
    _ _ rfl).1⟩

/-- C8 (counterexample). In the spec's scenario the repository `Create`
succeeds and the record is stored `queued`, yet the calls `CreateInbound`
makes are the repository `Create` and one log line: the number of
`EventBroker.Publish` calls is 0, not 1. -/
theorem C8_create_inbound_makes_no_publish_call :
    (memService.CreateInbound scenarioWorld scenarioInbound).1 =
        Except.ok ⟨"msg-1", "tenant-1", "conv-42", "{}", "{}", none, none, none,
          InboundMessageStatus.queued⟩ ∧
      (memService.CreateInbound scenarioWorld scenarioInbound).2.trace =
        [Call.inboundCreate scenarioInbound.toModel,
          Call.log "info" "inbound message created"
            [("messageId", "msg-1"), ("accountId", "tenant-1"),
              ("conversationKey", "conv-42")]] ∧
      ((memService.CreateInbound scenarioWorld scenarioInbound).2.trace.filter
        Call.isPublish).length = 0 :=
  ⟨rfl, rfl, rfl⟩

/-- C9 (as amended). `CreateOutbound` matches no reply: for every conversation
key and whatever `AwaitReply` waits are open, when the repository `Create`
succeeds it persists the outbound message through that one call, writes one
log line and returns the message as created; the open waits — on that key and
on every other — are left as they were and no `MarkSent` is performed. -/
theorem C9_create_outbound_resolves_nothing {σ : Type} (s : MessageService σ) (w : World σ)
    (params : CreateOutboundMessageParams) (msg : OutboundMessage) (db' : σ)
    (hok : s.outboundRepo.Create w.db params = (Except.ok msg, db')) :
    (s.CreateOutbound w params).1 = Except.ok msg ∧
      (s.CreateOutbound w params).2.waits = w.waits ∧
      (s.CreateOutbound w params).2.trace =
        w.trace ++ [Call.outboundCreate params,
          Call.log "info" "outbound message created"
            [("messageId", msg.ID), ("accountId", params.AccountID),
              ("conversationKey", params.ConversationKey)]] ∧
      Call.outboundMarkSent msg.ID ∉ (s.CreateOutbound w params).2.trace.drop w.trace.length := by
  rw [CreateOutbound_ok s w params msg db' hok]
  refine ⟨rfl, rfl, rfl, ?_⟩
  simp

theorem C9_create_outbound_resolves_nothing_witness :
    memService.outboundRepo.Create scenarioWorld.db scenarioOutbound =
        (Except.ok ⟨"msg-1", "tenant-1", "conv-42", "reply", OutboundMessageStatus.pending,
            none⟩,
          { inbound := [], outbound := [⟨"msg-1", "tenant-1", "conv-42", "reply",
              OutboundMessageStatus.pending, none⟩], freshIDs := ["msg-2"] }) ∧
      (memService.CreateOutbound scenarioWorld scenarioOutbound).2.waits =
        scenarioWorld.waits :=
  ⟨rfl, (C9_create_outbound_resolves_nothing memService scenarioWorld scenarioOutbound
    _ _ rfl).2.1⟩

/-- C9 (counterexample). In the spec's scenario two waits are open on
`conv-42`, the older one for `in-1`; after `CreateOutbound(tenant-1, conv-42,
reply)` both are still open, the new message is returned and stored `pending`
(not `sent`), and the only calls made are the repository `Create` and a log
line. -/
theorem C9_create_outbound_leaves_oldest_wait_open :
    (memService.CreateOutbound scenarioWorld scenarioOutbound).1 =
        Except.ok ⟨"msg-1", "tenant-1", "conv-42", "reply", OutboundMessageStatus.pending,
          none⟩ ∧
      (memService.CreateOutbound scenarioWorld scenarioOutbound).2.waits =
        [⟨"in-1", "conv-42"⟩, ⟨"in-2", "conv-42"⟩, ⟨"in-3", "conv-7"⟩] ∧
      (memService.CreateOutbound scenarioWorld scenarioOutbound).2.db.outbound =
        [⟨"msg-1", "tenant-1", "conv-42", "reply", OutboundMessageStatus.pending, none⟩] ∧
      (memService.CreateOutbound scenarioWorld scenarioOutbound).2.trace =
        [Call.outboundCreate scenarioOutbound,
          Call.log "info" "outbound message created"
            [("messageId", "msg-1"), ("accountId", "tenant-1"),
              ("conversationKey", "conv-42")]] :=
  ⟨rfl, rfl, rfl, rfl⟩

/-- C10. For every parameter set for which the repository `Create` succeeds,
`CreateOutbound` returns exactly the record the repository created — so with
the status it was created with, `pending` when the repository creates records
pending — leaves the database as `Create` left it, and performs no `MarkSent`
and no `MarkFailed`, on that message or any other. -/
theorem C10_create_outbound_leaves_pending {σ : Type} (s : MessageService σ) (w : World σ)
    (params : CreateOutboundMessageParams) (msg : OutboundMessage) (db' : σ)
    (hok : s.outboundRepo.Create w.db params = (Except.ok msg, db')) :
    (s.CreateOutbound w params).1 = Except.ok msg ∧
      (msg.Status = OutboundMessageStatus.pending →
        ∃ m, (s.CreateOutbound w params).1 = Except.ok m ∧
          m.Status = OutboundMessageStatus.pending) ∧
      (s.CreateOutbound w params).2.db = db' ∧
      ∀ id, ∀ c ∈ (s.CreateOutbound w params).2.trace.drop w.trace.length,
        Call.marksOutbound id c = false := by
  rw [CreateOutbound_ok s w params msg db' hok]
  refine ⟨rfl, fun h => ⟨msg, rfl, h⟩, rfl, ?_⟩
  intro id c hc
  simp at hc
  rcases hc with h | h <;> subst h <;> rfl

theorem C10_create_outbound_leaves_pending_witness :
    memService.outboundRepo.Create scenarioWorld.db scenarioOutbound =
        (Except.ok ⟨"msg-1", "tenant-1", "conv-42", "reply", OutboundMessageStatus.pending,
            none⟩,
          { inbound := [], outbound := [⟨"msg-1", "tenant-1", "conv-42", "reply",
              OutboundMessageStatus.pending, none⟩], freshIDs := ["msg-2"] }) ∧
      (∃ m, (memService.CreateOutbound scenarioWorld scenarioOutbound).1 = Except.ok m ∧
        m.Status = OutboundMessageStatus.pending) :=
  ⟨rfl, (C10_create_outbound_leaves_pending memService scenarioWorld scenarioOutbound
    _ _ rfl).2.1 rfl⟩

theorem setInboundStatus_acked_idem (db : MemDB) (id : String) :
    (((db.setInboundStatus id (fun st => decide (st = InboundMessageStatus.queued) ||
        decide (st = InboundMessageStatus.delivered)) InboundMessageStatus.acked).setInboundStatus
        id (fun st => decide (st = InboundMessageStatus.queued) ||
          decide (st = InboundMessageStatus.delivered)) InboundMessageStatus.acked)) =
      db.setInboundStatus id (fun st => decide (st = InboundMessageStatus.queued) ||
        decide (st = InboundMessageStatus.delivered)) InboundMessageStatus.acked := by
  simp only [MemDB.setInboundStatus, List.map_map]
  congr 1
  apply List.map_congr_left
  intro m _
  simp only [Function.comp]
  by_cases h : (m.ID = id && (decide (m.Status = InboundMessageStatus.queued) ||
      decide (m.Status = InboundMessageStatus.delivered))) = true
  · simp [h]
  · simp [h]

theorem memService_MarkAcked (w : World MemDB) (id : String) :
    memService.MarkAcked w id =
      (none, { db := w.db.setInboundStatus id
                (fun st => decide (st = InboundMessageStatus.queued) ||
                  decide (st = InboundMessageStatus.delivered)) InboundMessageStatus.acked,
               waits := w.waits,
               trace := w.trace ++ [Call.inboundMarkAcked id,
                 Call.log "debug" "message marked as acked" [("messageId", id)]] }) := rfl

/-- C11. `MarkAcked` is idempotent on the message store: for every store and
every inbound message id, `MarkAcked` returns no error, a second `MarkAcked`
returns no error either and leaves the store exactly as the first left it, and
a message with that id that was queued, delivered or acked is in status
`acked` after the first call and after the second. -/
theorem C11_mark_acked_idempotent (w : World MemDB) (id : String) :
    (memService.MarkAcked w id).1 = none ∧
      (memService.MarkAcked (memService.MarkAcked w id).2 id).1 = none ∧
      (memService.MarkAcked (memService.MarkAcked w id).2 id).2.db =
        (memService.MarkAcked w id).2.db ∧
      (∀ m ∈ w.db.inbound, m.ID = id →
        (m.Status = InboundMessageStatus.queued ∨ m.Status = InboundMessageStatus.delivered ∨
          m.Status = InboundMessageStatus.acked) →
        { m with Status := InboundMessageStatus.acked } ∈
            (memService.MarkAcked w id).2.db.inbound ∧
          { m with Status := InboundMessageStatus.acked } ∈
            (memService.MarkAcked (memService.MarkAcked w id).2 id).2.db.inbound) := by
  have hidem := setInboundStatus_acked_idem w.db id
  have hmem : ∀ m ∈ w.db.inbound, m.ID = id →
      (m.Status = InboundMessageStatus.queued ∨ m.Status = InboundMessageStatus.delivered ∨
        m.Status = InboundMessageStatus.acked) →
      { m with Status := InboundMessageStatus.acked } ∈
        (w.db.setInboundStatus id (fun st => decide (st = InboundMessageStatus.queued) ||
          decide (st = InboundMessageStatus.delivered)) InboundMessageStatus.acked).inbound := by
    intro m hm hid hst
    simp only [MemDB.setInboundStatus]
    apply List.mem_map.mpr
    refine ⟨m, hm, ?_⟩
    rcases hst with h | h | h
    · simp [hid, h]
    · simp [hid, h]
    · simp [hid, h]
      cases m
      simp_all
  simp only [memService_MarkAcked]
  refine ⟨trivial, trivial, hidem, ?_⟩
  intro m hm hid hst
  refine ⟨hmem m hm hid hst, ?_⟩
  rw [hidem]
  exact hmem m hm hid hst

theorem C11_mark_acked_idempotent_witness :
    (⟨"in-1", "tenant-1", "conv-42", "{}", "{}", none, none, none,
        InboundMessageStatus.delivered⟩ : InboundMessage) ∈ ackWorld.db.inbound ∧
      (⟨"in-1", "tenant-1", "conv-42", "{}", "{}", none, none, none,
        InboundMessageStatus.acked⟩ : InboundMessage) ∈
        (memService.MarkAcked (memService.MarkAcked ackWorld "in-1").2 "in-1").2.db.inbound :=
  ⟨by decide,
    ((C11_mark_acked_idempotent ackWorld "in-1").2.2.2
      ⟨"in-1", "tenant-1", "conv-42", "{}", "{}", none, none, none,
        InboundMessageStatus.delivered⟩ (by decide) rfl (Or.inr (Or.inl rfl))).2⟩

/-! ### MessageService: failures and statistics -/

theorem repositoryCallsSince_append (tr new : List Call) :
    repositoryCallsSince tr.length (tr ++ new) = new.filter Call.isRepository := by
  simp [repositoryCallsSince]

/-- No query is issued after the first one that fails. -/
theorem runUntilError_stops {σ : Type} (qs : List (CountQuery σ)) :
    ∀ (db : σ) (pre post : List (CountQuery σ × Except GoError Int))
      (q : CountQuery σ × Except GoError Int) (e : GoError),
      (runUntilError qs db).1 = pre ++ q :: post → q.2 = Except.error e → post = [] := by
  induction qs with
  | nil =>
    intro db pre post q e h _
    simp [runUntilError] at h
  | cons q0 rest ih =>
    intro db pre post q e h he
    rcases hr : q0.run db with ⟨r, db'⟩
    cases r with
    | error e0 =>
      simp only [runUntilError, hr] at h
      cases pre with
      | nil =>
        simp only [List.nil_append, List.cons.injEq] at h
        exact h.2.symm
      | cons p ps =>
        simp only [List.cons_append, List.cons.injEq] at h
        have := h.2
        simp at this
    | ok n =>
      simp only [runUntilError, hr] at h
      cases pre with
      | nil =>
        simp only [List.nil_append, List.cons.injEq] at h
        rw [← h.1] at he
        simp at he
      | cons p ps =>
        simp only [List.cons_append, List.cons.injEq] at h
        exact ih db' ps post q e h.2 he

/-- The queries issued are an initial segment of the queries given. -/
theorem runUntilError_prefix {σ : Type} (qs : List (CountQuery σ)) :
    ∀ db : σ, ((runUntilError qs db).1.map (fun q => q.1.call)) <+:
      (qs.map (fun q => q.call)) := by
  induction qs with
  | nil => intro db; simp [runUntilError]
  | cons q0 rest ih =>
    intro db
    rcases hr : q0.run db with ⟨r, db'⟩
    cases r with
    | error e0 =>
      simp only [runUntilError, hr, List.map_cons, List.map_nil]
      exact ⟨rest.map (fun q : CountQuery σ => q.call), rfl⟩
    | ok n =>
      simp only [runUntilError, hr, List.map_cons]
      obtain ⟨t, ht⟩ := ih db'
      exact ⟨t, by simp [← ht]⟩

theorem GetQuickStats_runUntilError {σ : Type} (s : MessageService σ) (w : World σ)
    (accountID : String) (now : GoTime) :
    (s.GetQuickStats w accountID now).2.trace =
        w.trace ++ (runUntilError (s.quickStatsQueries accountID now) w.db).1.map
          (fun q => q.1.call) ∧
      (s.GetQuickStats w accountID now).2.db =
        (runUntilError (s.quickStatsQueries accountID now) w.db).2 ∧
      ((∃ e, (s.GetQuickStats w accountID now).1 = Except.error e) ↔
        ∃ q ∈ (runUntilError (s.quickStatsQueries accountID now) w.db).1,
          ∃ e, q.2 = Except.error e) ∧
      (∀ q ∈ (runUntilError (s.quickStatsQueries accountID now) w.db).1, ∀ e,
        q.2 = Except.error e →
          (s.GetQuickStats w accountID now).1 = Except.error (GoError.wrap q.1.context e)) := by
  rcases h1 : s.inboundRepo.CountByAccountID w.db accountID with ⟨r1, d1⟩
  cases r1 with
  | error e1 =>
    simp [MessageService.GetQuickStats, MessageService.quickStatsQueries, runUntilError, h1]
  | ok n1 =>
    rcases h2 : s.inboundRepo.CountByAccountIDSince d1 accountID (todayStart now) with ⟨r2, d2⟩
    cases r2 with
    | error e2 =>
      simp [MessageService.GetQuickStats, MessageService.quickStatsQueries, runUntilError, h1, h2]
    | ok n2 =>
      rcases h3 : s.outboundRepo.CountByAccountID d2 accountID with ⟨r3, d3⟩
      cases r3 with
      | error e3 =>
        simp [MessageService.GetQuickStats, MessageService.quickStatsQueries, runUntilError,
          h1, h2, h3]
      | ok n3 =>
        rcases h4 : s.outboundRepo.CountByAccountIDSince d3 accountID (todayStart now)
          with ⟨r4, d4⟩
        cases r4 with
        | error e4 =>
          simp [MessageService.GetQuickStats, MessageService.quickStatsQueries, runUntilError,
            h1, h2, h3, h4]
        | ok n4 =>
          rcases h5 : s.outboundRepo.CountByAccountIDAndStatus d4 accountID
            OutboundMessageStatus.failed with ⟨r5, d5⟩
          cases r5 with
          | error e5 =>
            simp [MessageService.GetQuickStats, MessageService.quickStatsQueries, runUntilError,
              h1, h2, h3, h4, h5]
          | ok n5 =>
            simp [MessageService.GetQuickStats, MessageService.quickStatsQueries, runUntilError,
              h1, h2, h3, h4, h5]

theorem CreateInbound_failure {σ : Type} (s : MessageService σ) (w : World σ)
    (params : CreateInboundParams) :
    ((∃ e, (s.CreateInbound w params).1 = Except.error e) ↔
        ∃ e, (s.inboundRepo.Create w.db params.toModel).1 = Except.error e) ∧
      (∀ e, (s.inboundRepo.Create w.db params.toModel).1 = Except.error e →
        (s.CreateInbound w params).1 =
          Except.error (GoError.wrap "create inbound message" e)) ∧
      repositoryCallsSince w.trace.length (s.CreateInbound w params).2.trace =
        [Call.inboundCreate params.toModel] ∧
      (s.CreateInbound w params).2.db = (s.inboundRepo.Create w.db params.toModel).2 := by
  rcases h : s.inboundRepo.Create w.db params.toModel with ⟨r, d⟩
  cases r <;>
    simp [MessageService.CreateInbound, h, repositoryCallsSince, Call.isRepository]

theorem CreateOutbound_failure {σ : Type} (s : MessageService σ) (w : World σ)
    (params : CreateOutboundMessageParams) :
    ((∃ e, (s.CreateOutbound w params).1 = Except.error e) ↔
        ∃ e, (s.outboundRepo.Create w.db params).1 = Except.error e) ∧
      (∀ e, (s.outboundRepo.Create w.db params).1 = Except.error e →
        (s.CreateOutbound w params).1 =
          Except.error (GoError.wrap "create outbound message" e)) ∧
      repositoryCallsSince w.trace.length (s.CreateOutbound w params).2.trace =
        [Call.outboundCreate params] ∧
      (s.CreateOutbound w params).2.db = (s.outboundRepo.Create w.db params).2 := by
  rcases h : s.outboundRepo.Create w.db params with ⟨r, d⟩
  cases r <;>
    simp [MessageService.CreateOutbound, h, repositoryCallsSince, Call.isRepository]

theorem MarkDelivered_failure {σ : Type} (s : MessageService σ) (w : World σ) (id : String) :
    ((∃ e, (s.MarkDelivered w id).1 = some e) ↔
        ∃ e, (s.inboundRepo.MarkDelivered w.db id).1 = some e) ∧
      (∀ e, (s.inboundRepo.MarkDelivered w.db id).1 = some e →
        (s.MarkDelivered w id).1 = some (GoError.wrap "mark delivered" e)) ∧
      repositoryCallsSince w.trace.length (s.MarkDelivered w id).2.trace =
        [Call.inboundMarkDelivered id] ∧
      (s.MarkDelivered w id).2.db = (s.inboundRepo.MarkDelivered w.db id).2 := by
  rcases h : s.inboundRepo.MarkDelivered w.db id with ⟨r, d⟩
  cases r <;>
    simp [MessageService.MarkDelivered, h, repositoryCallsSince, Call.isRepository]

theorem MarkAcked_failure {σ : Type} (s : MessageService σ) (w : World σ) (id : String) :
    ((∃ e, (s.MarkAcked w id).1 = some e) ↔
        ∃ e, (s.inboundRepo.MarkAcked w.db id).1 = some e) ∧
      (∀ e, (s.inboundRepo.MarkAcked w.db id).1 = some e →
        (s.MarkAcked w id).1 = some (GoError.wrap "mark acked" e)) ∧
      repositoryCallsSince w.trace.length (s.MarkAcked w id).2.trace =
        [Call.inboundMarkAcked id] ∧
      (s.MarkAcked w id).2.db = (s.inboundRepo.MarkAcked w.db id).2 := by
  rcases h : s.inboundRepo.MarkAcked w.db id with ⟨r, d⟩
  cases r <;>
    simp [MessageService.MarkAcked, h, repositoryCallsSince, Call.isRepository]

/-- C12. Persistence failures abort the operation and are reported upward.
For `CreateInbound`, `CreateOutbound`, `MarkDelivered` and `MarkAcked`: the
operation returns an error (and then no result) if and only if its repository
call returns one, the error returned wraps the repository's error, and that
call is the only repository call made.  For `GetQuickStats`: the repository
calls made are the five count queries in order up to and including the first
that fails (none after it), it returns an error if and only if one of the
queries issued returns one, and the error returned wraps that query's error. -/
theorem C12_persistence_failures_reported {σ : Type} (s : MessageService σ) (w : World σ)
    (pin : CreateInboundParams) (pout : CreateOutboundMessageParams) (id accountID : String)
    (now : GoTime) :
    (((∃ e, (s.CreateInbound w pin).1 = Except.error e) ↔
          ∃ e, (s.inboundRepo.Create w.db pin.toModel).1 = Except.error e) ∧
        (∀ e, (s.inboundRepo.Create w.db pin.toModel).1 = Except.error e →
          (s.CreateInbound w pin).1 = Except.error (GoError.wrap "create inbound message" e)) ∧
        repositoryCallsSince w.trace.length (s.CreateInbound w pin).2.trace =
          [Call.inboundCreate pin.toModel]) ∧
      (((∃ e, (s.CreateOutbound w pout).1 = Except.error e) ↔
          ∃ e, (s.outboundRepo.Create w.db pout).1 = Except.error e) ∧
        (∀ e, (s.outboundRepo.Create w.db pout).1 = Except.error e →
          (s.CreateOutbound w pout).1 =
            Except.error (GoError.wrap "create outbound message" e)) ∧
        repositoryCallsSince w.trace.length (s.CreateOutbound w pout).2.trace =
          [Call.outboundCreate pout]) ∧
      (((∃ e, (s.MarkDelivered w id).1 = some e) ↔
          ∃ e, (s.inboundRepo.MarkDelivered w.db id).1 = some e) ∧
        (∀ e, (s.inboundRepo.MarkDelivered w.db id).1 = some e →
          (s.MarkDelivered w id).1 = some (GoError.wrap "mark delivered" e)) ∧
        repositoryCallsSince w.trace.length (s.MarkDelivered w id).2.trace =
          [Call.inboundMarkDelivered id]) ∧
      (((∃ e, (s.MarkAcked w id).1 = some e) ↔
          ∃ e, (s.inboundRepo.MarkAcked w.db id).1 = some e) ∧
        (∀ e, (s.inboundRepo.MarkAcked w.db id).1 = some e →
          (s.MarkAcked w id).1 = some (GoError.wrap "mark acked" e)) ∧
        repositoryCallsSince w.trace.length (s.MarkAcked w id).2.trace =
          [Call.inboundMarkAcked id]) ∧
      (((∃ e, (s.GetQuickStats w accountID now).1 = Except.error e) ↔
          ∃ q ∈ (runUntilError (s.quickStatsQueries accountID now) w.db).1,
            ∃ e, q.2 = Except.error e) ∧
        (∀ q ∈ (runUntilError (s.quickStatsQueries accountID now) w.db).1, ∀ e,
          q.2 = Except.error e →
            (s.GetQuickStats w accountID now).1 =
              Except.error (GoError.wrap q.1.context e)) ∧
        (s.GetQuickStats w accountID now).2.trace =
          w.trace ++ (runUntilError (s.quickStatsQueries accountID now) w.db).1.map
            (fun q => q.1.call) ∧
        ((runUntilError (s.quickStatsQueries accountID now) w.db).1.map (fun q => q.1.call) <+:
          (s.quickStatsQueries accountID now).map (fun q => q.call)) ∧
        (∀ pre post q e,
          (runUntilError (s.quickStatsQueries accountID now) w.db).1 = pre ++ q :: post →
            q.2 = Except.error e → post = [])) := by
  have h1 := CreateInbound_failure s w pin
  have h2 := CreateOutbound_failure s w pout
  have h3 := MarkDelivered_failure s w id
  have h4 := MarkAcked_failure s w id
  have h5 := GetQuickStats_runUntilError s w accountID now
  exact ⟨⟨h1.1, h1.2.1, h1.2.2.1⟩, ⟨h2.1, h2.2.1, h2.2.2.1⟩, ⟨h3.1, h3.2.1, h3.2.2.1⟩,
    ⟨h4.1, h4.2.1, h4.2.2.1⟩,
    ⟨h5.2.2.1, h5.2.2.2, h5.1, runUntilError_prefix _ w.db,
      fun pre post q e => runUntilError_stops _ w.db pre post q e⟩⟩

theorem C12_persistence_failures_reported_witness :
    (memService.inboundRepo.Create ackWorld.db scenarioInbound.toModel).1 =
        Except.error (GoError.base "no identifier left") ∧
      (memService.CreateInbound ackWorld scenarioInbound).1 =
        Except.error (GoError.wrap "create inbound message"
          (GoError.base "no identifier left")) :=
  ⟨rfl, (C12_persistence_failures_reported memService ackWorld scenarioInbound scenarioOutbound
    "in-1" "tenant-1" statsNow).1.2.1 _ rfl⟩

theorem todayStart_midnight (t : GoTime) (hr : dateInRange t = true)
    (hm : midnightExists t = true) :
    todayStart t =
      { year := t.year, month := t.month, day := t.day, hour := 0, minute := 0, second := 0,
        nanosecond := 0, location := t.location } := by
  simp only [dateInRange, Bool.and_eq_true, decide_eq_true_eq] at hr
  obtain ⟨⟨h1, h12⟩, hrt⟩ := hr
  simp only [midnightExists, decide_eq_true_eq, midnightUnix] at hm
  have hq : ((t.month : Int) - 1) / 12 = 0 := by omega
  have hmod : ((t.month : Int) - 1) % 12 + 1 = t.month := by omega
  have hU : daysFromCivil ((t.year : Int) + ((t.month : Int) - 1) / 12)
      (((t.month : Int) - 1) % 12 + 1) (t.day : Int) * 86400 + ((0 : Nat) : Int) * 3600 +
      ((0 : Nat) : Int) * 60 + (((0 : Nat) : Int) + ((0 / 1000000000 : Nat) : Int)) =
      daysFromCivil t.year t.month t.day * 86400 := by
    rw [hq, hmod]
    simp
  unfold todayStart GoTime.Date
  rw [hU]
  unfold GoTime.ofUnix
  rw [hm]
  have hloc : daysFromCivil t.year t.month t.day * 86400 -
      dateOffset t.location (daysFromCivil t.year t.month t.day * 86400) +
      dateOffset t.location (daysFromCivil t.year t.month t.day * 86400) =
      daysFromCivil t.year t.month t.day * 86400 := by omega
  rw [hloc]
  have hdiv : daysFromCivil t.year t.month t.day * 86400 / 86400 =
      daysFromCivil t.year t.month t.day := by omega
  have hrem : daysFromCivil t.year t.month t.day * 86400 % 86400 = 0 := by omega
  simp only [hdiv, hrem, hrt]
  simp

/-- C13 (as amended). `GetQuickStats` is a read-only aggregation of five counts:
when the five count queries succeed, the result holds the account's inbound
count as `InboundTotal`, its inbound count since `todayStart` as
`InboundToday`, the same two counts over outbound messages as `OutboundTotal`
and `OutboundToday`, and its count of outbound messages with status `failed`
as `OutboundFailed`.  `todayStart` is `time.Date` of today's year, month and
day at 0:00:00.000 in the clock's location; it reads 00:00:00.000 of today's
date whenever that date is a calendar date and local midnight exists in the
location.  The calls made are those five count queries and nothing else, and
the database is as the last query left it. -/
theorem C13_quick_stats_aggregation {σ : Type} (s : MessageService σ) (w : World σ)
    (accountID : String) (now : GoTime) (n1 n2 n3 n4 n5 : Int) (d1 d2 d3 d4 d5 : σ)
    (h1 : s.inboundRepo.CountByAccountID w.db accountID = (Except.ok n1, d1))
    (h2 : s.inboundRepo.CountByAccountIDSince d1 accountID (todayStart now) =
      (Except.ok n2, d2))
    (h3 : s.outboundRepo.CountByAccountID d2 accountID = (Except.ok n3, d3))
    (h4 : s.outboundRepo.CountByAccountIDSince d3 accountID (todayStart now) =
      (Except.ok n4, d4))
    (h5 : s.outboundRepo.CountByAccountIDAndStatus d4 accountID OutboundMessageStatus.failed =
      (Except.ok n5, d5)) :
    (s.GetQuickStats w accountID now).1 =
        Except.ok { InboundToday := n2, InboundTotal := n1, OutboundToday := n4,
                    OutboundTotal := n3, OutboundFailed := n5 } ∧
      todayStart now = GoTime.Date now.year now.month now.day 0 0 0 0 now.location ∧
      (dateInRange now = true → midnightExists now = true →
        todayStart now =
          { year := now.year, month := now.month, day := now.day, hour := 0, minute := 0,
            second := 0, nanosecond := 0, location := now.location }) ∧
      (s.GetQuickStats w accountID now).2.trace =
        w.trace ++ [Call.inboundCountByAccountID accountID,
          Call.inboundCountByAccountIDSince accountID (todayStart now),
          Call.outboundCountByAccountID accountID,
          Call.outboundCountByAccountIDSince accountID (todayStart now),
          Call.outboundCountByAccountIDAndStatus accountID OutboundMessageStatus.failed] ∧
      (∀ c ∈ (s.GetQuickStats w accountID now).2.trace.drop w.trace.length,
        c.isCountQuery = true) ∧
      (s.GetQuickStats w accountID now).2.db = d5 ∧
      (s.GetQuickStats w accountID now).2.waits = w.waits := by
  have hG : s.GetQuickStats w accountID now =
      (Except.ok { InboundToday := n2, InboundTotal := n1, OutboundToday := n4,
                   OutboundTotal := n3, OutboundFailed := n5 },
        { db := d5, waits := w.waits,
          trace := w.trace ++ [Call.inboundCountByAccountID accountID,
            Call.inboundCountByAccountIDSince accountID (todayStart now),
            Call.outboundCountByAccountID accountID,
            Call.outboundCountByAccountIDSince accountID (todayStart now),
            Call.outboundCountByAccountIDAndStatus accountID OutboundMessageStatus.failed] }) := by
    simp [MessageService.GetQuickStats, h1, h2, h3, h4, h5]
  rw [hG]
  refine ⟨rfl, rfl, todayStart_midnight now, rfl, ?_, rfl, rfl⟩
  intro c hc
  simp at hc
  rcases hc with h | h | h | h | h <;> subst h <;> rfl

theorem C13_quick_stats_aggregation_witness :
    memService.inboundRepo.CountByAccountID statsWorld.db "tenant-1" =
        (Except.ok 2, statsWorld.db) ∧
      dateInRange statsNow = true ∧ midnightExists statsNow = true ∧
      (memService.GetQuickStats statsWorld "tenant-1" statsNow).1 =
        Except.ok { InboundToday := 1, InboundTotal := 2, OutboundToday := 1,
                    OutboundTotal := 2, OutboundFailed := 1 } ∧
      todayStart statsNow = ⟨2026, 3, 15, 0, 0, 0, 0, seoul⟩ :=
  ⟨rfl, by decide, by decide,
    (C13_quick_stats_aggregation memService statsWorld "tenant-1" statsNow 2 1 2 1 1
      statsWorld.db statsWorld.db statsWorld.db statsWorld.db statsWorld.db
      rfl rfl rfl rfl rfl).1,
    (C13_quick_stats_aggregation memService statsWorld "tenant-1" statsNow 2 1 2 1 1
      statsWorld.db statsWorld.db statsWorld.db statsWorld.db statsWorld.db
      rfl rfl rfl rfl rfl).2.2.1 (by decide) (by decide)⟩

/-- C13 (counterexample). On 2026-03-08 in Havana local midnight falls in the
gap of the clock change, and `todayStart` is 23:00:00 of 2026-03-07, not
00:00:00.000 of today's date: a message created at 23:30 the evening before is
counted in `InboundToday` (1), though no message was created since 00:00:00 of
2026-03-08 (0). -/
theorem C13_today_starts_before_midnight_in_gap :
    todayStart havanaNow = ⟨2026, 3, 7, 23, 0, 0, 0, havana⟩ ∧
      (memService.GetQuickStats havanaWorld "tenant-1" havanaNow).1 =
        Except.ok { InboundToday := 1, InboundTotal := 1, OutboundToday := 0,
                    OutboundTotal := 0, OutboundFailed := 0 } ∧
      (memService.inboundRepo.CountByAccountIDSince havanaWorld.db "tenant-1"
          ⟨2026, 3, 8, 0, 0, 0, 0, havana⟩).1 = Except.ok 0 :=
  ⟨by decide, rfl, rfl⟩

/-! ### ExpiryReaper -/

theorem expireIfDue_changed (ttlElapsed : Nat → InboundMessage → Bool) (now : Nat)
    (m : InboundMessage) (h : expireIfDue ttlElapsed now m ≠ m) :
    m.Status = InboundMessageStatus.queued ∧
      (ttlElapsed now m = true ∨ callbackElapsed now m = true) ∧
      expireIfDue ttlElapsed now m = { m with Status := InboundMessageStatus.expired } := by
  unfold expireIfDue at h ⊢
  by_cases hc : (decide (m.Status = InboundMessageStatus.queued) &&
      (ttlElapsed now m || callbackElapsed now m)) = true
  · have hc' := hc
    simp only [Bool.and_eq_true, decide_eq_true_eq, Bool.or_eq_true] at hc'
    exact ⟨hc'.1, hc'.2, by rw [if_pos hc]⟩
  · rw [if_neg hc] at h
    exact absurd rfl h

theorem expireIfDue_not_queued (ttlElapsed : Nat → InboundMessage → Bool) (now : Nat)
    (m : InboundMessage) (h : m.Status ≠ InboundMessageStatus.queued) :
    expireIfDue ttlElapsed now m = m := by
  unfold expireIfDue
  simp [h]

/-- C14. One sweep only expires unanswered work.  Inbound messages stay in
place, and a message is changed only if it was `queued` and its time-to-live or
callback deadline had elapsed, the change being the status `expired`; a
message that was `delivered` or `acked` (or anything but `queued`), or whose
deadlines have not elapsed, is unchanged.  A session is removed only if it was
`pending_pairing` and past its pairing deadline; every other session —
`paired`, `disconnected`, or not yet past the deadline — is still there, and
the sessions that remain are unchanged and in their order. -/
theorem C14_reaper_expires_only_due_rows (ttlElapsed : Nat → InboundMessage → Bool)
    (now : Nat) (st : ReaperState) :
    (sweep ttlElapsed now st).2.inbound = st.inbound.map (expireIfDue ttlElapsed now) ∧
      (∀ m, expireIfDue ttlElapsed now m ≠ m →
        m.Status = InboundMessageStatus.queued ∧
          (ttlElapsed now m = true ∨ callbackElapsed now m = true) ∧
          expireIfDue ttlElapsed now m = { m with Status := InboundMessageStatus.expired }) ∧
      (∀ m, m.Status ≠ InboundMessageStatus.queued → expireIfDue ttlElapsed now m = m) ∧
      (∀ m, ttlElapsed now m = false → callbackElapsed now m = false →
        expireIfDue ttlElapsed now m = m) ∧
      List.Sublist (sweep ttlElapsed now st).2.sessions st.sessions ∧
      (∀ s ∈ st.sessions, s ∉ (sweep ttlElapsed now st).2.sessions →
        s.status = SessionStatus.pending_pairing ∧ s.expiresAt < now) ∧
      (∀ s ∈ st.sessions, (s.status ≠ SessionStatus.pending_pairing ∨ now ≤ s.expiresAt) →
        s ∈ (sweep ttlElapsed now st).2.sessions) := by
  refine ⟨rfl, expireIfDue_changed ttlElapsed now, expireIfDue_not_queued ttlElapsed now,
    ?_, ?_, ?_, ?_⟩
  · intro m h1 h2
    unfold expireIfDue
    simp [h1, h2]
  · exact List.filter_sublist _
  · intro s hs hnot
    have : ¬ (!sessionDue now s) = true := fun h => hnot (List.mem_filter.mpr ⟨hs, h⟩)
    simpa [sessionDue] using this
  · intro s hs h
    apply List.mem_filter.mpr
    refine ⟨hs, ?_⟩
    rcases h with h | h
    · simp [sessionDue, h]
    · simp [sessionDue]
      exact Or.inr h

theorem C14_reaper_expires_only_due_rows_witness :
    scenarioSession ∈ reaperState.sessions ∧
      scenarioSession ∉ (sweep (fun _ _ => false) 400 reaperState).2.sessions ∧
      scenarioSession.status = SessionStatus.pending_pairing ∧ scenarioSession.expiresAt < 400 :=
  ⟨by decide, by decide,
    (C14_reaper_expires_only_due_rows (fun _ _ => false) 400 reaperState).2.2.2.2.2.1
      scenarioSession (by decide) (by decide)⟩

/-! ### Credential rotation, token generation, code masking -/

theorem UpdateToken_found (notFound : Except GoError (Option Account))
    (accounts : List Account) (id tokenHash : String) (now : GoTime) (a : Account)
    (ha : a ∈ accounts) (hid : a.ID = id) :
    ∃ a', (UpdateToken none notFound accounts id tokenHash now).1 = Except.ok (some a') ∧
      a'.ID = id ∧ a'.RelayTokenHash = some tokenHash ∧ a'.UpdatedAt = now := by
  unfold UpdateToken
  simp only
  cases hf : (accounts.map (fun a =>
      if a.ID = id then { a with RelayTokenHash := some tokenHash, UpdatedAt := now }
      else a)).find? (fun a => decide (a.ID = id)) with
  | none =>
    have hnone := List.find?_eq_none.mp hf
    have hmem : ({ a with RelayTokenHash := some tokenHash, UpdatedAt := now } : Account) ∈
        accounts.map (fun a =>
          if a.ID = id then { a with RelayTokenHash := some tokenHash, UpdatedAt := now }
          else a) :=
      List.mem_map.mpr ⟨a, ha, by simp [hid]⟩
    have := hnone _ hmem
    simp [hid] at this
  | some a' =>
    have hp := List.find?_some hf
    have hm := List.mem_of_find?_eq_some hf
    obtain ⟨b, _, hb⟩ := List.mem_map.mp hm
    have hida : a'.ID = id := by simpa using hp
    refine ⟨a', rfl, hida, ?_, ?_⟩
    · by_cases h : b.ID = id
      · simp [h] at hb
        rw [← hb]
      · simp [h] at hb
        rw [hb] at h
        exact absurd hida h
    · by_cases h : b.ID = id
      · simp [h] at hb
        rw [← hb]
      · simp [h] at hb
        rw [hb] at h
        exact absurd hida h

theorem UpdateToken_exact (notFound : Except GoError (Option Account))
    (accounts : List Account) (id tokenHash : String) (now : GoTime) :
    List.Forall₂ (fun a a' =>
        (a.ID = id → a' = { ID := a.ID, RelayTokenHash := some tokenHash,
                            RateLimitPerMin := a.RateLimitPerMin, CreatedAt := a.CreatedAt,
                            UpdatedAt := now }) ∧
        (a.ID ≠ id → a' = a))
      accounts (UpdateToken none notFound accounts id tokenHash now).2 := by
  unfold UpdateToken
  simp only
  cases hf : (accounts.map (fun a =>
      if a.ID = id then { a with RelayTokenHash := some tokenHash, UpdatedAt := now }
      else a)).find? (fun a => decide (a.ID = id)) with
  | some a0 =>
    apply List.forall₂_map_right_iff.mpr
    apply List.forall₂_same.mpr
    intro a _
    by_cases h : a.ID = id
    · simp [h]
    · simp [h]
  | none =>
    have hnone := List.find?_eq_none.mp hf
    apply List.forall₂_same.mpr
    intro a ha
    have hne : a.ID ≠ id := by
      intro h
      have hmem : ({ a with RelayTokenHash := some tokenHash, UpdatedAt := now } : Account) ∈
          accounts.map (fun a =>
            if a.ID = id then { a with RelayTokenHash := some tokenHash, UpdatedAt := now }
            else a) :=
        List.mem_map.mpr ⟨a, ha, by simp [h]⟩
      have := hnone _ hmem
      simp [h] at this
    exact ⟨fun h => absurd h hne, fun _ => rfl⟩

theorem UpdateToken_dbErr (e : GoError) (notFound : Except GoError (Option Account))
    (accounts : List Account) (id tokenHash : String) (now : GoTime) :
    UpdateToken (some e) notFound accounts id tokenHash now = (Except.error e, accounts) := rfl

/-- C16. Credential rotation stores only the hash and returns the plaintext
once.  When `RegenerateToken` succeeds (status 200) the response is exactly
`relayToken: t` for the generated token `t`; the one repository call made is
`UpdateToken(accountID, HashToken(t))`, so the repository is handed the account
id and the hash, not `t`; and in the accounts table afterwards every row of
that account id has `relay_token_hash = HashToken(t)` and `updated_at = now`
with `id`, `rate_limit_per_minute` and `created_at` as before, every other row
being unchanged.  In general `UpdateToken(id, h)` does exactly that to the
table when the database answers, and leaves it as it was and returns the error
when the database fails. -/
theorem C16_rotation_stores_only_hash (rnd : Except String (List Nat)) (updateOk : Bool)
    (accountID : String) (dbErr : Option GoError) (notFound : Except GoError (Option Account))
    (accounts : List Account) (id tokenHash : String) (now : GoTime) :
    ((RegenerateTokenOn rnd dbErr notFound accounts now accountID).1.status = 200 →
        ∃ t, GenerateToken rnd = (t, none) ∧
          (RegenerateTokenOn rnd dbErr notFound accounts now accountID).1.body =
            [("relayToken", t)] ∧
          List.Forall₂ (fun a a' =>
              (a.ID = accountID →
                a' = { ID := a.ID, RelayTokenHash := some (HashToken t),
                       RateLimitPerMin := a.RateLimitPerMin, CreatedAt := a.CreatedAt,
                       UpdatedAt := now }) ∧
              (a.ID ≠ accountID → a' = a))
            accounts (RegenerateTokenOn rnd dbErr notFound accounts now accountID).2) ∧
      ((RegenerateToken rnd updateOk accountID).2.status = 200 →
        ∃ t, GenerateToken rnd = (t, none) ∧
          (RegenerateToken rnd updateOk accountID).2.body = [("relayToken", t)] ∧
          (RegenerateToken rnd updateOk accountID).1 = [(accountID, HashToken t)]) ∧
      List.Forall₂ (fun a a' =>
          (a.ID = id → a' = { ID := a.ID, RelayTokenHash := some tokenHash,
                              RateLimitPerMin := a.RateLimitPerMin, CreatedAt := a.CreatedAt,
                              UpdatedAt := now }) ∧
          (a.ID ≠ id → a' = a))
        accounts (UpdateToken none notFound accounts id tokenHash now).2 ∧
      (∀ e, UpdateToken (some e) notFound accounts id tokenHash now =
        (Except.error e, accounts)) ∧
      (∀ a ∈ accounts, a.ID = id →
        ∃ a', (UpdateToken none notFound accounts id tokenHash now).1 = Except.ok (some a') ∧
          a'.ID = id ∧ a'.RelayTokenHash = some tokenHash ∧ a'.UpdatedAt = now) := by
  refine ⟨?_, ?_, UpdateToken_exact notFound accounts id tokenHash now,
    fun e => rfl,
    fun a ha hid => UpdateToken_found notFound accounts id tokenHash now a ha hid⟩
  · intro h200
    cases rnd with
    | error e => simp [RegenerateTokenOn, GenerateToken] at h200
    | ok bytes =>
      cases dbErr with
      | some e =>
        simp [RegenerateTokenOn, GenerateToken, UpdateToken] at h200
      | none =>
        refine ⟨hexEncodeToString (bytes.take tokenBytes), rfl, ?_, ?_⟩
        · simp only [RegenerateTokenOn, GenerateToken] at h200 ⊢
          split at h200
          · simp at h200
          · rename_i heq
            simp only [heq]
        · have hex := UpdateToken_exact notFound accounts accountID
            (HashToken (hexEncodeToString (bytes.take tokenBytes))) now
          simp only [RegenerateTokenOn, GenerateToken] at h200 ⊢
          split at h200
          · simp at h200
          · rename_i heq
            simp only [heq]
            exact hex
  · intro h200
    cases rnd with
    | error e => simp [RegenerateToken, GenerateToken] at h200
    | ok bytes =>
      cases updateOk with
      | false => simp [RegenerateToken, GenerateToken] at h200
      | true =>
        exact ⟨hexEncodeToString (bytes.take tokenBytes), rfl, rfl, rfl⟩

theorem C16_rotation_stores_only_hash_witness :
    (RegenerateTokenOn (Except.ok (List.replicate 32 0)) none (Except.ok none) exampleAccounts
        statsNow "acct-1").1.status = 200 ∧
      (∃ t, GenerateToken (Except.ok (List.replicate 32 0)) = (t, none) ∧
        (RegenerateTokenOn (Except.ok (List.replicate 32 0)) none (Except.ok none)
          exampleAccounts statsNow "acct-1").1.body = [("relayToken", t)] ∧
        List.Forall₂ (fun a a' =>
            (a.ID = "acct-1" →
              a' = { ID := a.ID, RelayTokenHash := some (HashToken t),
                     RateLimitPerMin := a.RateLimitPerMin, CreatedAt := a.CreatedAt,
                     UpdatedAt := statsNow }) ∧
            (a.ID ≠ "acct-1" → a' = a))
          exampleAccounts
          (RegenerateTokenOn (Except.ok (List.replicate 32 0)) none (Except.ok none)
            exampleAccounts statsNow "acct-1").2) :=
  ⟨rfl, (C16_rotation_stores_only_hash (Except.ok (List.replicate 32 0)) true "acct-1" none
    (Except.ok none) exampleAccounts "acct-1" "h" statsNow).1 rfl⟩

set_option maxRecDepth 100000 in
/-- The table after rotating the token of `acct-1`: its row carries the hash of
the token returned, the other row is untouched. -/
theorem RegenerateTokenOn_example :
    (RegenerateTokenOn (Except.ok (List.replicate 32 0)) none (Except.ok none) exampleAccounts
        statsNow "acct-1") =
      (⟨200, [("relayToken",
          "0000000000000000000000000000000000000000000000000000000000000000")]⟩,
        [ ⟨"acct-1",
            some "60e05bd1b195af2f94112fa7197a5c88289058840ce7c6df9693756bc6250f55", 60,
            ⟨2026, 1, 2, 3, 4, 5, 0, utcLocation⟩, statsNow⟩,
          ⟨"acct-2", none, 120, ⟨2026, 2, 3, 4, 5, 6, 0, utcLocation⟩,
            ⟨2026, 2, 3, 4, 5, 6, 0, utcLocation⟩⟩ ]) := by
  decide

theorem hexDigit_mem (n : Nat) : hexDigit n ∈ hexDigits := by
  unfold hexDigit hexDigits
  by_cases h : n < 16
  · interval_cases n <;> decide
  · have hlen : "0123456789abcdef".toList.length ≤ n := by
      have : "0123456789abcdef".toList.length = 16 := by decide
      omega
    rw [List.getD_eq_default _ _ hlen]
    decide

theorem hexEncodeToString_chars (bs : List Nat) :
    ∀ c ∈ (hexEncodeToString bs).data, c ∈ hexDigits := by
  intro c hc
  unfold hexEncodeToString at hc
  simp only [List.mem_flatMap] at hc
  obtain ⟨b, _, hb⟩ := hc
  simp only [List.mem_cons, List.mem_singleton, List.not_mem_nil, or_false] at hb
  rcases hb with h | h <;> rw [h] <;> exact hexDigit_mem _

/-- C17. `GenerateToken`: when the random source delivers its 32 bytes, the
error is nil and the token is the hex encoding of those bytes, 64 characters
long, every character a lowercase hexadecimal digit; when the random source
fails, the result is the empty string with that error.  `HashToken` returns
for every input a string of 64 lowercase hexadecimal digits, the same for
equal inputs. -/
theorem C17_token_generation (bytes : List Nat) (e s s' : String) :
    (bytes.length = 32 →
        (GenerateToken (Except.ok bytes)).2 = none ∧
          (GenerateToken (Except.ok bytes)).1 = hexEncodeToString bytes ∧
          (GenerateToken (Except.ok bytes)).1.length = 64 ∧
          ∀ c ∈ (GenerateToken (Except.ok bytes)).1.data, c ∈ hexDigits) ∧
      GenerateToken (Except.error e) = ("", some e) ∧
      (HashToken s).length = 64 ∧
      (∀ c ∈ (HashToken s).data, c ∈ hexDigits) ∧
      (s = s' → HashToken s = HashToken s') := by
  refine ⟨?_, rfl, ?_, hexEncodeToString_chars _, fun h => by rw [h]⟩
  · intro hlen
    have htake : bytes.take tokenBytes = bytes := by
      apply List.take_of_length_le
      simp [tokenBytes, hlen]
    simp only [GenerateToken, htake]
    refine ⟨trivial, trivial, ?_, hexEncodeToString_chars _⟩
    rw [hexEncodeToString_length, hlen]
  · unfold HashToken
    rw [hexEncodeToString_length, Sum256_length]

theorem C17_token_generation_witness :
    (List.replicate 32 171).length = 32 ∧
      (GenerateToken (Except.ok (List.replicate 32 171))).1.length = 64 :=
  ⟨by decide, ((C17_token_generation (List.replicate 32 171) "e" "a" "a").1 (by decide)).2.2.1⟩

theorem stringBytes_mask4 : stringBytes "****" = [42, 42, 42, 42] := by decide

theorem stringBytes_mask5 : stringBytes "-****" = [45, 42, 42, 42, 42] := by decide

/-- C18. `MaskCode` never reveals more than the first four bytes of a code:
for a code of at most four bytes the result is `****`; for a longer code it is
the first four bytes of the code (the slice is in bounds) followed by `-****`;
the result is 4 or 9 bytes long; two codes longer than four bytes that agree
on their first four bytes have the same mask; and the mask of `ABCD-1234` is
`ABCD-****`. -/
theorem C18_mask_code (code code' : List Nat) :
    (code.length ≤ 4 → MaskCode code = stringBytes "****") ∧
      (4 < code.length →
        MaskCode code = code.take 4 ++ stringBytes "-****" ∧ (code.take 4).length = 4 ∧
          (MaskCode code).length = 9) ∧
      ((MaskCode code).length = 4 ∨ (MaskCode code).length = 9) ∧
      (4 < code.length → 4 < code'.length → code.take 4 = code'.take 4 →
        MaskCode code = MaskCode code') ∧
      MaskCode (stringBytes "ABCD-1234") = stringBytes "ABCD-****" := by
  have hlong : ∀ c : List Nat, 4 < c.length →
      MaskCode c = c.take 4 ++ stringBytes "-****" := by
    intro c hc
    unfold MaskCode
    rw [if_neg (by omega)]
  have htake : ∀ c : List Nat, 4 < c.length → (c.take 4).length = 4 := by
    intro c hc
    rw [List.length_take]
    omega
  refine ⟨?_, ?_, ?_, ?_, by decide⟩
  · intro h
    unfold MaskCode
    rw [if_pos h]
  · intro h
    refine ⟨hlong code h, htake code h, ?_⟩
    rw [hlong code h, List.length_append, htake code h, stringBytes_mask5]
    rfl
  · by_cases h : code.length ≤ 4
    · left
      unfold MaskCode
      rw [if_pos h, stringBytes_mask4]
      rfl
    · right
      have h' : 4 < code.length := by omega
      rw [hlong code h', List.length_append, htake code h', stringBytes_mask5]
      rfl
  · intro h h' heq
    rw [hlong code h, hlong code' h', heq]

theorem C18_mask_code_witness :
    4 < (stringBytes "ABCD-1234").length ∧ 4 < (stringBytes "ABCD-9999").length ∧
      (stringBytes "ABCD-1234").take 4 = (stringBytes "ABCD-9999").take 4 ∧
      MaskCode (stringBytes "ABCD-1234") = MaskCode (stringBytes "ABCD-9999") :=
  ⟨by decide, by decide, by decide,
    (C18_mask_code (stringBytes "ABCD-1234") (stringBytes "ABCD-9999")).2.2.2.1
      (by decide) (by decide) (by decide)⟩

/-! ### Dashboard listings -/

theorem parsePagination_limit (atoi : String → Option Int) (q : List (String × String)) :
    (parsePagination atoi q).1 =
      if queryGet q "limit" ≠ "" then
        match atoi (queryGet q "limit") with
        | some parsed => if 0 < parsed ∧ parsed ≤ 100 then parsed else 20
        | none => 20
      else 20 := rfl

theorem parsePagination_offset (atoi : String → Option Int) (q : List (String × String)) :
    (parsePagination atoi q).2 =
      if queryGet q "offset" ≠ "" then
        match atoi (queryGet q "offset") with
        | some parsed => if 0 ≤ parsed then parsed else 0
        | none => 0
      else 0 := rfl

theorem parsePagination_bounds (atoi : String → Option Int) (q : List (String × String)) :
    1 ≤ (parsePagination atoi q).1 ∧ (parsePagination atoi q).1 ≤ 100 ∧
      0 ≤ (parsePagination atoi q).2 := by
  rw [parsePagination_limit, parsePagination_offset]
  refine ⟨?_, ?_, ?_⟩
  · split
    · split
      · split <;> omega
      · omega
    · omega
  · split
    · split
      · split <;> omega
      · omega
    · omega
  · split
    · split
      · split <;> omega
      · omega
    · omega

theorem ListSessions_limit (atoi : String → Option Int) (q : List (String × String))
    (findRecent : Int → Except GoError (List Session)) :
    (ListSessions atoi q findRecent).1 =
      if queryGet q "limit" ≠ "" then
        match atoi (queryGet q "limit") with
        | some parsed => if 0 < parsed ∧ parsed ≤ 100 then parsed else 50
        | none => 50
      else 50 := by
  unfold ListSessions
  simp only
  split <;> rfl

theorem AccountMessages_query (atoi : String → Option Int) (q : List (String × String))
    (accountID : String)
    (findOutbound : String → Int → Int → Except GoError (List OutboundMessage))
    (findInbound : String → Int → Int → Except GoError (List InboundMessage)) :
    (AccountMessages atoi q accountID findOutbound findInbound).1.limit =
        (parsePagination atoi q).1 ∧
      (AccountMessages atoi q accountID findOutbound findInbound).1.offset =
        (parsePagination atoi q).2 := by
  unfold AccountMessages
  simp only
  split
  · split <;> exact ⟨rfl, rfl⟩
  · split <;> exact ⟨rfl, rfl⟩

/-- C19. Dashboard listing bounds are always enforced.  For every query,
whatever `limit` and `offset` values it carries or lacks, `parsePagination`
returns `1 ≤ limit ≤ 100` and `offset ≥ 0`: the limit is the parsed value when
the parameter is present and parses to an integer in 1..100 and 20 when it is
absent or rejected, the offset is the parsed value when the parameter is
present and parses to an integer `≥ 0` and 0 otherwise.  `ListSessions` calls
`FindRecent` with the parsed limit when it is an integer in 1..100 and with 50
otherwise, and `AccountMessages` passes the limit and offset of
`parsePagination` to the repository. -/
theorem C19_listing_bounds (atoi : String → Option Int) (q : List (String × String))
    (findRecent : Int → Except GoError (List Session)) (accountID : String)
    (findOutbound : String → Int → Int → Except GoError (List OutboundMessage))
    (findInbound : String → Int → Int → Except GoError (List InboundMessage)) :
    (1 ≤ (parsePagination atoi q).1 ∧ (parsePagination atoi q).1 ≤ 100 ∧
        0 ≤ (parsePagination atoi q).2) ∧
      (∀ n, queryGet q "limit" ≠ "" → atoi (queryGet q "limit") = some n → 0 < n → n ≤ 100 →
        (parsePagination atoi q).1 = n ∧ (ListSessions atoi q findRecent).1 = n) ∧
      ((queryGet q "limit" = "" ∨ atoi (queryGet q "limit") = none ∨
          ∃ n, atoi (queryGet q "limit") = some n ∧ (n ≤ 0 ∨ 100 < n)) →
        (parsePagination atoi q).1 = 20 ∧ (ListSessions atoi q findRecent).1 = 50) ∧
      (∀ n, queryGet q "offset" ≠ "" → atoi (queryGet q "offset") = some n → 0 ≤ n →
        (parsePagination atoi q).2 = n) ∧
      ((queryGet q "offset" = "" ∨ atoi (queryGet q "offset") = none ∨
          ∃ n, atoi (queryGet q "offset") = some n ∧ n < 0) →
        (parsePagination atoi q).2 = 0) ∧
      ((AccountMessages atoi q accountID findOutbound findInbound).1.limit =
          (parsePagination atoi q).1 ∧
        (AccountMessages atoi q accountID findOutbound findInbound).1.offset =
          (parsePagination atoi q).2) := by
  refine ⟨parsePagination_bounds atoi q, ?_, ?_, ?_, ?_,
    AccountMessages_query atoi q accountID findOutbound findInbound⟩
  · intro n h1 h2 h3 h4
    rw [parsePagination_limit, ListSessions_limit]
    simp [h1, h2, h3, h4]
  · intro h
    rw [parsePagination_limit, ListSessions_limit]
    rcases h with h | h | ⟨n, h, hn⟩
    · simp [h]
    · simp [h]
    · have hnot : ¬ (0 < n ∧ n ≤ 100) := by omega
      by_cases hq : queryGet q "limit" = ""
      · simp [hq]
      · simp [hq, h, hnot]
  · intro n h1 h2 h3
    rw [parsePagination_offset]
    simp [h1, h2, h3]
  · intro h
    rw [parsePagination_offset]
    rcases h with h | h | ⟨n, h, hn⟩
    · simp [h]
    · simp [h]
    · have hnot : ¬ (0 ≤ n) := by omega
      by_cases hq : queryGet q "offset" = ""
      · simp [hq]
      · simp [hq, h, hnot]

theorem C19_listing_bounds_witness :
    queryGet [("limit", "100"), ("offset", "7")] "limit" ≠ "" ∧
      Atoi (queryGet [("limit", "100"), ("offset", "7")] "limit") = some 100 ∧
      (parsePagination Atoi [("limit", "100"), ("offset", "7")]).1 = 100 ∧
      (ListSessions Atoi [("limit", "100"), ("offset", "7")] (fun _ => Except.ok [])).1 = 100 :=
  ⟨by decide, by decide,
    (C19_listing_bounds Atoi [("limit", "100"), ("offset", "7")] (fun _ => Except.ok [])
      "acct-1" (fun _ _ _ => Except.ok []) (fun _ _ _ => Except.ok [])).2.1 100
      (by decide) (by decide) (by decide) (by decide)⟩

/-! ### ListAccounts -/

theorem listAccountEntries_length {σ : Type} (s : MessageService σ) (fmt : GoTime → String)
    (clock : Nat → GoTime) (accounts : List Account) :
    ∀ (i : Nat) (w : World σ),
      (listAccountEntries s fmt clock i w accounts).1.length = accounts.length := by
  induction accounts with
  | nil => intro i w; rfl
  | cons acc rest ih =>
    intro i w
    simp only [listAccountEntries, List.length_cons, ih]

theorem accountEntry_keys (fmt : GoTime → String) (acc : Account)
    (r : Except GoError QuickStats) :
    ∀ kv ∈ accountEntry fmt acc r, kv.1 ∈ entryKeys := by
  intro kv hkv
  cases r with
  | error e =>
    simp only [accountEntry, accountBaseFields, List.mem_cons, List.mem_singleton,
      List.not_mem_nil, or_false] at hkv
    rcases hkv with h | h | h | h <;> rw [h] <;> simp [entryKeys]
  | ok st =>
    simp only [accountEntry, accountBaseFields, statsFields, List.cons_append, List.nil_append,
      List.mem_cons, List.mem_singleton, List.not_mem_nil, or_false] at hkv
    rcases hkv with h | h | h | h | h | h | h | h | h <;> rw [h] <;> simp [entryKeys]

theorem accountEntry_eraseHash (fmt : GoTime → String) (a a' : Account)
    (h : eraseHash a' = eraseHash a) :
    a'.ID = a.ID ∧ ∀ r, accountEntry fmt a' r = accountEntry fmt a r := by
  cases a
  cases a'
  simp only [eraseHash, Account.mk.injEq, true_and] at h
  obtain ⟨h1, h2, h3, h4⟩ := h
  subst h1 h2 h3 h4
  refine ⟨rfl, ?_⟩
  intro r
  cases r <;> rfl

theorem listAccountEntries_eraseHash {σ : Type} (s : MessageService σ) (fmt : GoTime → String)
    (clock : Nat → GoTime) (accounts : List Account) :
    ∀ (accounts' : List Account) (i : Nat) (w : World σ),
      accounts'.map eraseHash = accounts.map eraseHash →
        listAccountEntries s fmt clock i w accounts' =
          listAccountEntries s fmt clock i w accounts := by
  induction accounts with
  | nil =>
    intro accounts' i w h
    cases accounts' with
    | nil => rfl
    | cons a r => simp at h
  | cons acc rest ih =>
    intro accounts' i w h
    cases accounts' with
    | nil => simp at h
    | cons a r =>
      simp only [List.map_cons, List.cons.injEq] at h
      obtain ⟨hid, hentry⟩ := accountEntry_eraseHash fmt acc a h.1
      simp only [listAccountEntries, hid, hentry, ih r (i + 1) _ h.2]

theorem listAccountEntries_get {σ : Type} (s : MessageService σ) (fmt : GoTime → String)
    (clock : Nat → GoTime) (accounts : List Account) :
    ∀ (i : Nat) (w : World σ) (k : Nat) (acc : Account), accounts[k]? = some acc →
      (listAccountEntries s fmt clock i w accounts).1[k]? =
        some (accountEntry fmt acc
          (s.GetQuickStats (worldBefore s clock i w accounts k) acc.ID (clock (i + k))).1) := by
  induction accounts with
  | nil => intro i w k acc h; simp at h
  | cons a rest ih =>
    intro i w k acc h
    cases k with
    | zero =>
      simp only [List.getElem?_cons_zero, Option.some.injEq] at h
      subst h
      simp [listAccountEntries, worldBefore]
    | succ k =>
      simp only [List.getElem?_cons_succ] at h
      have := ih (i + 1) (s.GetQuickStats w a.ID (clock i)).2 k acc h
      simp only [listAccountEntries, worldBefore, List.getElem?_cons_succ]
      rw [this]
      have harith : i + 1 + k = i + (k + 1) := by omega
      rw [harith]

theorem listAccountEntries_keys {σ : Type} (s : MessageService σ) (fmt : GoTime → String)
    (clock : Nat → GoTime) (accounts : List Account) :
    ∀ (i : Nat) (w : World σ), ∀ e ∈ (listAccountEntries s fmt clock i w accounts).1,
      ∀ kv ∈ e, kv.1 ∈ entryKeys := by
  induction accounts with
  | nil => intro i w e he; simp [listAccountEntries] at he
  | cons a rest ih =>
    intro i w e he
    simp only [listAccountEntries, List.mem_cons] at he
    rcases he with h | h
    · rw [h]
      exact accountEntry_keys fmt a _
    · exact ih _ _ e h

/-- C20. `ListAccounts` returns one entry per account and never exposes the
credential hash.  When `FindAll` succeeds with `n` accounts the reply has
status 200 and is a list of exactly `n` entries; the `k`-th entry is the entry
of the `k`-th account built with what `GetQuickStats` returned for that account
in that iteration.  The entry of an account is `id`, `rateLimitPerMinute`,
`createdAt` and `updatedAt` of the account (the two instants formatted),
followed — when `GetQuickStats` succeeded — by `inboundToday`, `inboundTotal`,
`outboundToday`, `outboundTotal` and `outboundFailed` with the five counts
returned, and by nothing when it failed: a failure neither drops the entry nor
fails the request.  No entry has a key outside those nine, and the whole reply
is the same for two account lists that differ only in their relay token
hashes.  When `FindAll` fails the reply is status 500. -/
theorem C20_list_accounts (σ : Type) (s : MessageService σ) (fmt : GoTime → String)
    (clock : Nat → GoTime) (w : World σ) (accounts : List Account) :
    (ListAccounts s fmt clock w (Except.ok accounts)).1 =
        ⟨200, ReplyBody.data (listAccountEntries s fmt clock 0 w accounts).1⟩ ∧
      (listAccountEntries s fmt clock 0 w accounts).1.length = accounts.length ∧
      (∀ k acc, accounts[k]? = some acc →
        (listAccountEntries s fmt clock 0 w accounts).1[k]? =
          some (accountEntry fmt acc
            (s.GetQuickStats (worldBefore s clock 0 w accounts k) acc.ID (clock k)).1)) ∧
      (∀ acc st, accountEntry fmt acc (Except.ok st) =
        [("id", JSONValue.str acc.ID), ("rateLimitPerMinute", JSONValue.num acc.RateLimitPerMin),
          ("createdAt", JSONValue.str (fmt acc.CreatedAt)),
          ("updatedAt", JSONValue.str (fmt acc.UpdatedAt)),
          ("inboundToday", JSONValue.num st.InboundToday),
          ("inboundTotal", JSONValue.num st.InboundTotal),
          ("outboundToday", JSONValue.num st.OutboundToday),
          ("outboundTotal", JSONValue.num st.OutboundTotal),
          ("outboundFailed", JSONValue.num st.OutboundFailed)]) ∧
      (∀ acc e, accountEntry fmt acc (Except.error e) =
        [("id", JSONValue.str acc.ID), ("rateLimitPerMinute", JSONValue.num acc.RateLimitPerMin),
          ("createdAt", JSONValue.str (fmt acc.CreatedAt)),
          ("updatedAt", JSONValue.str (fmt acc.UpdatedAt))]) ∧
      (∀ e ∈ (listAccountEntries s fmt clock 0 w accounts).1, ∀ kv ∈ e,
        kv.1 ∈ ["id", "rateLimitPerMinute", "createdAt", "updatedAt", "inboundToday",
          "inboundTotal", "outboundToday", "outboundTotal", "outboundFailed"]) ∧
      (∀ accounts' : List Account, accounts'.map eraseHash = accounts.map eraseHash →
        ListAccounts s fmt clock w (Except.ok accounts') =
          ListAccounts s fmt clock w (Except.ok accounts)) ∧
      (∀ e, (ListAccounts s fmt clock w (Except.error e)).1 =
        ⟨500, ReplyBody.error "Failed to list accounts"⟩) := by
  refine ⟨rfl, listAccountEntries_length s fmt clock accounts 0 w, ?_, fun _ _ => rfl,
    fun _ _ => rfl, listAccountEntries_keys s fmt clock accounts 0 w, ?_, fun _ => rfl⟩
  · intro k acc h
    have := listAccountEntries_get s fmt clock accounts 0 w k acc h
    simpa using this
  · intro accounts' h
    simp only [ListAccounts, listAccountEntries_eraseHash s fmt clock accounts accounts' 0 w h]

theorem C20_list_accounts_witness :
    exampleAccounts[1]? = some ⟨"acct-2", none, 120, ⟨2026, 2, 3, 4, 5, 6, 0, utcLocation⟩,
        ⟨2026, 2, 3, 4, 5, 6, 0, utcLocation⟩⟩ ∧
      (listAccountEntries flakyService (fun t => t.location.name) (fun _ => statsNow) 0
          statsWorld exampleAccounts).1[1]? =
        some (accountEntry (fun t => t.location.name)
          ⟨"acct-2", none, 120, ⟨2026, 2, 3, 4, 5, 6, 0, utcLocation⟩,
            ⟨2026, 2, 3, 4, 5, 6, 0, utcLocation⟩⟩
          (flakyService.GetQuickStats
            (worldBefore flakyService (fun _ => statsNow) 0 statsWorld exampleAccounts 1)
            "acct-2" statsNow).1) :=
  ⟨by decide,
    (C20_list_accounts MemDB flakyService (fun t => t.location.name) (fun _ => statsNow)
      statsWorld exampleAccounts).2.2.1 1 _ (by decide)⟩

/-- The reply of `ListAccounts` on the two example accounts when the statistics
of `acct-2` fail: two entries, the second with the four account fields only. -/
theorem ListAccounts_example :
    (ListAccounts flakyService (fun t => t.location.name) (fun _ => statsNow) statsWorld
        (Except.ok exampleAccounts)).1 =
      ⟨200, ReplyBody.data
        [ [("id", JSONValue.str "acct-1"), ("rateLimitPerMinute", JSONValue.num 60),
            ("createdAt", JSONValue.str "UTC"), ("updatedAt", JSONValue.str "UTC"),
            ("inboundToday", JSONValue.num 0), ("inboundTotal", JSONValue.num 0),
            ("outboundToday", JSONValue.num 0), ("outboundTotal", JSONValue.num 0),
            ("outboundFailed", JSONValue.num 0)],
          [("id", JSONValue.str "acct-2"), ("rateLimitPerMinute", JSONValue.num 120),
            ("createdAt", JSONValue.str "UTC"), ("updatedAt", JSONValue.str "UTC")] ]⟩ := by
  decide

/-! ### Configuration -/

theorem Validate_nil (c : Config) (isProduction : Bool) : (c.Validate isProduction).1 = none := by
  unfold Config.Validate
  cases isProduction <;> rfl

/-- C21. `Config.Validate` never rejects a configuration: for every `Config`
and both values of `isProduction` it returns nil.  Outside production it logs
nothing; in production an empty signature secret, a `redis://` URL and an empty
encryption key each produce one warning, in that order, and nothing else is
logged.  So the startup step of `main` never takes the branch that aborts on
an invalid configuration: whatever the configuration and the environment, it
goes on to connect to the database. -/
theorem C21_validate_never_rejects (c : Config) (isProduction : Bool)
    (kService flyAppName : String) :
    (c.Validate isProduction).1 = none ∧
      (c.Validate false).2 = [] ∧
      (c.Validate true).2 =
        (if c.KakaoSignatureSecret = "" then [warnSignatureSecret] else []) ++
        (if hasPrefix c.RedisURL "redis://" then [warnRedisTLS] else []) ++
        (if c.EncryptionKey = "" then [warnEncryptionKey] else []) ∧
      (mainValidate c kService flyAppName).1 = StartupStep.connectDatabase ∧
      (∀ msg, (mainValidate c kService flyAppName).1 ≠ StartupStep.fatal msg) := by
  have hmain : (mainValidate c kService flyAppName).1 = StartupStep.connectDatabase := by
    unfold mainValidate
    simp only [Validate_nil]
  refine ⟨Validate_nil c isProduction, rfl, rfl, hmain, ?_⟩
  intro msg h
  rw [hmain] at h
  exact StartupStep.noConfusion h

/-- The weakest production configuration is accepted with its three warnings;
with `LOG_LEVEL=error` the same configuration is accepted and none of them is
written. -/
theorem Validate_weakConfig :
    weakConfig.Validate true = (none, [warnSignatureSecret, warnRedisTLS, warnEncryptionKey]) ∧
      mainValidate weakConfig "relay" "" =
        (StartupStep.connectDatabase,
          [warnSignatureSecret, warnRedisTLS, warnEncryptionKey]) ∧
      mainValidate { weakConfig with LogLevel := "error" } "relay" "" =
        (StartupStep.connectDatabase, []) := by
  decide

/-! ### Routing of mounted sub-routers -/

/-- A mounted sub-router takes every method: a `GET` and a `POST` under
`/openclaw` both reach the OpenClaw handler, behind the router-wide middlewares
and the two of the group. -/
theorem serve_openclaw_any_method :
    (serve (fun _ => true) true emptyStore ⟨"GET", "/openclaw/*", "203.0.113.7", 0⟩).1 =
        Outcome.reached HandlerId.openclaw ∧
      (serve (fun _ => true) true emptyStore ⟨"POST", "/openclaw/*", "203.0.113.7", 0⟩).1 =
        Outcome.reached HandlerId.openclaw ∧
      (serve (fun m => decide (m ≠ Middleware.auth)) true emptyStore
          ⟨"GET", "/openclaw/*", "203.0.113.7", 0⟩).1 = Outcome.rejected Middleware.auth := by
  decide

end KakaoRelay
